import Mathlib

/-!
Verification of the storage coordination core of the indexing repository.

The definitions below are a shallow embedding of the Go source
(`storage_manager.go`, `scan_request.go` and companions).  Where a leaf
helper of the repository is not part of the provided sources (the
`common` package's timestamp utilities, the snapshot-info container, the
index-key entry types and the collation codec), the definition carries a
doc comment starting with `Modelled from the spec:` and follows the
specification's words; everything else is translated directly from the
source functions named in the comments.
-/

namespace Indexing

/-! ## Timestamps (`common.TsVbuuid`, `indexer.Timestamp`) -/

/-- Snapshot types carried by a flush timestamp (spec §3; the source
matches on `common.NO_SNAP`, `NO_SNAP_OSO`, `DISK_SNAP`, `DISK_SNAP_OSO`,
`FORCE_COMMIT`, `FORCE_COMMIT_MERGE`). -/
inductive SnapType
  | noSnap
  | noSnapOso
  | diskSnap
  | diskSnapOso
  | forceCommit
  | forceCommitMerge
  deriving DecidableEq, Repr

/-- Modelled from the spec: a `TsVbuuid` is a fixed-width vector over the
virtual-bucket space, each slot carrying {sequenceNumber, vbuuid}, plus a
`Crc64` field and a snapshot type (spec §3, `common.TsVbuuid` is not under
`src/`). -/
structure TsVbuuid where
  seqnos : List Nat
  vbuuids : List Nat
  crc64 : Nat
  snapType : SnapType
  deriving DecidableEq, Repr

/-- Modelled from the spec: `Timestamp.GreaterThan` — "`ts.seqnos >
prior.seqnos` (pointwise, at least one strict)" (spec §4.1; the
`indexer.Timestamp` methods are not under `src/`). -/
def tsGreaterThan (a b : List Nat) : Bool :=
  ((a.zip b).all fun p => p.2 ≤ p.1) && ((a.zip b).any fun p => p.2 < p.1)

/-- Modelled from the spec: `TsVbuuid.EqualOrGreater(other, false)` —
"Comparison: `a ≥ b` iff componentwise for sequence numbers" (spec §3);
the `false` argument skips vbuuid matching. -/
def tsEqualOrGreater (a b : TsVbuuid) : Bool :=
  (a.seqnos.zip b.seqnos).all fun p => p.2 ≤ p.1

/-- Modelled from the spec: `TsVbuuid.HasZeroSeqNum` — "upstream asked for
complete rewind of some vb" (spec §4.3), i.e. some slot's seqno is zero. -/
def tsHasZeroSeqNum (a : TsVbuuid) : Bool :=
  a.seqnos.any (· == 0)

/-- Modelled from the spec: `TsVbuuid.Equal` — slot-wise equality of the
seqno and vbuuid vectors. -/
def tsEqual (a b : TsVbuuid) : Bool :=
  a.seqnos == b.seqnos && a.vbuuids == b.vbuuids

/-- Modelled from the spec: `NewTimestamp(numVbuckets)` returns the zero
timestamp over `numVbuckets` slots. -/
def NewTimestamp (numVbuckets : Nat) : List Nat :=
  List.replicate numVbuckets 0

/-- `createSnapshotWorker` (storage manager): `needsCommit` is set for
`DISK_SNAP`/`DISK_SNAP_OSO`, `forceCommit` for
`FORCE_COMMIT`/`FORCE_COMMIT_MERGE`.  Returns `(needsCommit, forceCommit)`. -/
def commitFlags (snapType : SnapType) : Bool × Bool :=
  if snapType = .diskSnap || snapType = .diskSnapOso then (true, false)
  else if snapType = .forceCommit || snapType = .forceCommitMerge then (false, true)
  else (false, false)

/-! ## Snapshot trees and reference counts

A storage-level `Snapshot` is identified by a `SnapId`; the reference
counts live in a map `Refs`.  `Slice.OpenSnapshot` and
`Snapshot.Open()` increment, destruction decrements (spec §3, §5). -/

abbrev SnapId := Nat

abbrev Refs := SnapId → Nat

def openSnap (r : Refs) (sid : SnapId) : Refs :=
  fun s => if s = sid then r s + 1 else r s

def closeSnap (r : Refs) (sid : SnapId) : Refs :=
  fun s => if s = sid then r s - 1 else r s

/-- `sliceSnapshot` (storage manager): a slice id together with the
storage snapshot it holds. -/
structure SliceSnapshot where
  id : Nat
  snap : SnapId
  deriving DecidableEq, Repr

/-- `partitionSnapshot` (storage manager): partition id plus its slice
snapshots (the Go `map[SliceId]SliceSnapshot` is modelled as a list). -/
structure PartitionSnapshot where
  id : Nat
  slices : List SliceSnapshot
  deriving DecidableEq, Repr

/-- `indexSnapshot` (storage manager): instance id, timestamp and the
partition snapshots (the Go `map[common.PartitionId]PartitionSnapshot` is
modelled as a list); `epoch` marks the lazily created nil snapshot. -/
structure IndexSnapshot where
  instId : Nat
  ts : TsVbuuid
  partns : List PartitionSnapshot
  epoch : Bool := false
  deriving DecidableEq, Repr

/-- All storage snapshot ids referenced by an index snapshot, one entry
per slice snapshot. -/
def IndexSnapshot.snapIds (is : IndexSnapshot) : List SnapId :=
  is.partns.flatMap fun ps => ps.slices.map (·.snap)

/-- Modelled from the spec: `CloneIndexSnapshot` — "Cloning a snapshot
bumps every slice refcount" (spec §5) and returns the same tree. -/
def CloneIndexSnapshot (r : Refs) (is : IndexSnapshot) : IndexSnapshot × Refs :=
  (is, is.snapIds.foldl openSnap r)

/-- Modelled from the spec: `DestroyIndexSnapshot` — "decrements every
slice Snapshot exactly once" (spec §3). -/
def DestroyIndexSnapshot (r : Refs) (is : IndexSnapshot) : Refs :=
  is.snapIds.foldl closeSnap r

/-- The per-partition body of `deepCloneIndexSnapshot`'s loop
(storage manager): clone the partition when `doPrune = false` or its id
is in `keepPartnIds`, incrementing (`Open`) the refcount of every slice
snapshot cloned. -/
def deepCloneStep (doPrune : Bool) (keepPartnIds : List Nat)
    (acc : List PartitionSnapshot × Refs) (partnSnap : PartitionSnapshot) :
    List PartitionSnapshot × Refs :=
  let doClone := if !doPrune then true else keepPartnIds.contains partnSnap.id
  if doClone then
    (acc.1 ++ [partnSnap], partnSnap.slices.foldl (fun rr ss => openSnap rr ss.snap) acc.2)
  else acc

/-- `deepCloneIndexSnapshot` (storage manager): clones the partition
snapshots (all of them when `doPrune = false`, else only those whose id is
in `keepPartnIds`), incrementing the refcount of every slice snapshot
that gets cloned. -/
def deepCloneIndexSnapshot (r : Refs) (is : IndexSnapshot) (doPrune : Bool)
    (keepPartnIds : List Nat) : IndexSnapshot × Refs :=
  let z := is.partns.foldl (deepCloneStep doPrune keepPartnIds) ([], r)
  ({ is with partns := z.1 }, z.2)

/-! ## The per-slice snapshot decision (`createSnapshotForIndex`)

The storage engine behind a `Slice` is an external capability (spec §1,
§6); a slice is modelled by its observable answers: its dirty bit and the
results of `NewSnapshot`/`OpenSnapshot`. -/

structure Slice where
  id : Nat
  isDirty : Bool
  /-- whether `slice.NewSnapshot(ts, needsCommit)` succeeds -/
  newSnapshotOk : Bool
  /-- whether `slice.OpenSnapshot(info)` succeeds -/
  openSnapshotOk : Bool
  /-- the storage snapshot produced when both calls succeed -/
  newSnapId : SnapId
  lastRollbackTs : Option TsVbuuid := none
  deriving DecidableEq, Repr

inductive SliceOutcome
  | created (ss : SliceSnapshot)
  | reused (ss : SliceSnapshot)
  | newSnapshotError
  | openSnapshotError
  deriving DecidableEq, Repr

/-- The per-slice body of `createSnapshotForIndex` (storage manager):
given the prior slice snapshot (`latest`, with the timestamp of the
storage snapshot it holds), create a new storage snapshot when

  `latestSnapshot == nil || ((slice.IsDirty() || needsCommit) &&
   ts.GreaterThan(snapTs)) || forceCommit`

otherwise reuse the prior snapshot, incrementing its refcount
(`latestSnapshot.Open()`).  `OpenSnapshot` bumps the refcount of a newly
created snapshot (spec §3).  Errors from `NewSnapshot`/`OpenSnapshot`
skip the slice. -/
def sliceSnapshotStep (r : Refs) (slice : Slice) (latest : Option (SnapId × TsVbuuid))
    (tsVbuuid : TsVbuuid) (numVbuckets : Nat) (needsCommit forceCommit : Bool) :
    SliceOutcome × Refs :=
  let snapTs : List Nat :=
    match latest with
    | some z => z.2.seqnos
    | none => NewTimestamp numVbuckets
  let ts := tsVbuuid.seqnos
  if latest.isNone || ((slice.isDirty || needsCommit) && tsGreaterThan ts snapTs)
      || forceCommit then
    if !slice.newSnapshotOk then (.newSnapshotError, r)
    else if !slice.openSnapshotOk then (.openSnapshotError, r)
    else (.created ⟨slice.id, slice.newSnapId⟩, openSnap r slice.newSnapId)
  else
    match latest with
    | some z => (.reused ⟨slice.id, z.1⟩, openSnap r z.1)
    | none => (.newSnapshotError, r)  -- unreachable: `latest.isNone` was handled above

/-! ## Waiter registry (`snapshotWaiter`, `updateSnapMapAndNotify`) -/

inductive Consistency
  | anyConsistency
  | sessionConsistency
  | queryConsistency
  | absoluteConsistency
  deriving DecidableEq, Repr

/-- Modelled from the spec: `isSnapshotConsistent(snap, cons, reqTs)`
(spec §4.2) — Any/Absolute hold trivially; Query/Session require
`snap.ts ≥ reqTs` sequence-wise per slot, with the vbuuid matching where
`reqTs` pins a non-zero one. -/
def isSnapshotConsistent (is : IndexSnapshot) (cons : Consistency) (reqTs : TsVbuuid) : Bool :=
  match cons with
  | .anyConsistency | .absoluteConsistency => true
  | .queryConsistency | .sessionConsistency =>
      ((reqTs.seqnos.zip is.ts.seqnos).all fun p => p.1 ≤ p.2) &&
      ((reqTs.vbuuids.zip is.ts.vbuuids).all fun p => p.1 == 0 || p.1 == p.2)

/-- `snapshotWaiter` (storage manager): request timestamp, consistency,
expiry (`none` models Go's zero `time.Time`, i.e. no deadline) and an
identifier standing for the reply channel. -/
structure Waiter where
  wid : Nat
  ts : TsVbuuid
  cons : Consistency
  expired : Option Nat
  deriving DecidableEq, Repr

/-- What a waiter's reply channel receives. -/
inductive Delivery
  | scanTimedOut (wid : Nat)
  | snapshot (wid : Nat) (is : IndexSnapshot)
  deriving DecidableEq, Repr

/-- Go's `!w.expired.IsZero() && t.After(w.expired)`: a deadline is set
and has strictly passed. -/
def waiterExpiredNow (now : Nat) (w : Waiter) : Bool :=
  match w.expired with
  | some e => decide (e < now)
  | none => false

/-- The per-waiter body of `updateSnapMapAndNotify`'s walk (storage
manager): an expired waiter gets `ErrScanTimedOut` and is dropped; else a
waiter whose consistency predicate the new snapshot satisfies gets a
refcount-bumped clone and is dropped; else it is kept. -/
def walkWaitersStep (is : IndexSnapshot) (now : Nat)
    (acc : List Delivery × List Waiter × Refs) (w : Waiter) :
    List Delivery × List Waiter × Refs :=
  if waiterExpiredNow now w then
    (acc.1 ++ [.scanTimedOut w.wid], acc.2.1, acc.2.2)
  else if isSnapshotConsistent is w.cons w.ts then
    let z := CloneIndexSnapshot acc.2.2 is
    (acc.1 ++ [.snapshot w.wid z.1], acc.2.1, z.2)
  else
    (acc.1, acc.2.1 ++ [w], acc.2.2)

/-- The waiter walk of `updateSnapMapAndNotify` (storage manager).
Returns the deliveries, the surviving waiters and the updated
refcounts. -/
def walkWaiters (is : IndexSnapshot) (now : Nat) (waiters : List Waiter) (r : Refs) :
    List Delivery × List Waiter × Refs :=
  waiters.foldl (walkWaitersStep is now) ([], [], r)

/-! ## The storage manager's published maps -/

/-- `common.IndexState` (only `Deleted` steers the storage manager). -/
inductive IndexState
  | initial
  | pending
  | loading
  | active
  | deleted
  deriving DecidableEq, Repr

def lookupEntry {α : Type} (m : List (Nat × α)) (k : Nat) : Option α :=
  (m.find? (fun p => p.1 == k)).map (·.2)

def setEntry {α : Type} : List (Nat × α) → Nat → α → List (Nat × α)
  | [], k, v => [(k, v)]
  | p :: m, k, v => if p.1 == k then (k, v) :: m else p :: setEntry m k v

/-- The storage manager's published maps (spec §3): instance states,
per-instance snapshot containers (`container.snap`), per-instance waiter
lists, and the storage-snapshot refcounts. -/
structure StorageState where
  instMap : List (Nat × IndexState)
  snapMap : List (Nat × IndexSnapshot)
  waitersMap : List (Nat × List Waiter)
  refs : Refs

/-- Modelled from the spec: `common.NewTsVbuuid(bucket, numVbuckets)` — a
fresh timestamp with zero seqno and vbuuid vectors ("nil snapshot should
have ZERO Crc64", storage manager). -/
def NewTsVbuuid (numVbuckets : Nat) : TsVbuuid :=
  { seqnos := List.replicate numVbuckets 0
    vbuuids := List.replicate numVbuckets 0
    crc64 := 0
    snapType := .noSnap }

/-- `initSnapshotContainerForInst` (storage manager): no container is
created for a missing or `Deleted` instance; an existing container is
returned unchanged (`updated = false`); otherwise a container is created
holding `is` when given, else the epoch nil snapshot.  Returns the
container's snapshot (`none` when refused), the `updated` flag and the
new state. -/
def initSnapshotContainerForInst (st : StorageState) (instId : Nat)
    (is : Option IndexSnapshot) (numVbuckets : Nat) :
    Option IndexSnapshot × Bool × StorageState :=
  match lookupEntry st.instMap instId with
  | none => (none, false, st)
  | some s =>
    if s = .deleted then (none, false, st)
    else
      match lookupEntry st.snapMap instId with
      | some sc => (some sc, false, st)
      | none =>
        let snap : IndexSnapshot :=
          match is with
          | none => { instId := instId, ts := NewTsVbuuid numVbuckets, partns := [], epoch := true }
          | some s => s
        (some snap, true, { st with snapMap := setEntry st.snapMap instId snap })

/-- `initSnapshotWaitersForInst` (storage manager): refuses for a missing
or `Deleted` instance, else returns the (possibly fresh, empty) waiter
container. -/
def initSnapshotWaitersForInst (st : StorageState) (instId : Nat) :
    Option (List Waiter) × StorageState :=
  match lookupEntry st.instMap instId with
  | none => (none, st)
  | some s =>
    if s = .deleted then (none, st)
    else
      match lookupEntry st.waitersMap instId with
      | some wc => (some wc, st)
      | none => (some [], { st with waitersMap := setEntry st.waitersMap instId [] })

/-- `updateSnapMapAndNotify` (storage manager): install `is` as the
instance's published snapshot (destroying the previous one unless the
container was created just now with `is`), send a refcount-bumped clone
to the notification channel (`notifySnapshotCreation`; the consumer later
destroys that copy), then walk the instance's waiters. -/
def updateSnapMapAndNotify (st : StorageState) (is : IndexSnapshot)
    (now : Nat) (numVbuckets : Nat) : StorageState × List Delivery :=
  let z :=
    match lookupEntry st.snapMap is.instId with
    | some sc => (some sc, false, st)
    | none => initSnapshotContainerForInst st is.instId (some is) numVbuckets
  match z with
  | (none, _, st1) => (st1, [])
  | (some oldSnap, updated, st1) =>
    let st2 :=
      if updated = false then
        { st1 with
          refs := DestroyIndexSnapshot st1.refs oldSnap
          snapMap := setEntry st1.snapMap is.instId is }
      else st1
    -- notifySnapshotCreation: a clone goes out on the notification channel
    let st3 := { st2 with refs := (CloneIndexSnapshot st2.refs is).2 }
    match
      (match lookupEntry st3.waitersMap is.instId with
       | some wc => (some wc, st3)
       | none => initSnapshotWaitersForInst st3 is.instId) with
    | (none, st4) => (st4, [])
    | (some waiters, st4) =>
      let w := walkWaiters is now waiters st4.refs
      ({ st4 with waitersMap := setEntry st4.waitersMap is.instId w.2.1, refs := w.2.2 },
       w.1)

/-! ## Instance-level snapshot creation (`createSnapshotForIndex`) -/

/-- A partition instance: its id and its slices (`PartitionInst` /
`SliceContainer.GetAllSlices`). -/
structure PartnInst where
  id : Nat
  slices : List Slice
  deriving Repr

/-- `lastPartnSnap.Slices()[slice.Id()].Snapshot()` together with its
timestamp (`latestSnapshot.Timestamp()`, reported by `snapTsOf`). -/
def priorSliceSnap (snapTsOf : SnapId → TsVbuuid) (lastPartnSnap : Option PartitionSnapshot)
    (sliceId : Nat) : Option (SnapId × TsVbuuid) :=
  match lastPartnSnap with
  | some ps => (ps.slices.find? (fun ss => ss.id == sliceId)).map
      fun ss => (ss.snap, snapTsOf ss.snap)
  | none => none

/-- The slice loop of `createSnapshotForIndex`.  `snapTsOf` reports the
storage engine's timestamp for an existing storage snapshot
(`latestSnapshot.Timestamp()`).  Returns `none` when an aborted flush
makes the whole function return early, otherwise the slice snapshots
collected, the `isSnapCreated` flag and the refcounts.  (`hasAllSB` only
clears each slice's `LastRollbackTs` and is not modelled.) -/
def slicesLoop (snapTsOf : SnapId → TsVbuuid) (lastPartnSnap : Option PartitionSnapshot)
    (tsVbuuid : TsVbuuid) (numVbuckets : Nat)
    (flushWasAborted needsCommit forceCommit : Bool) :
    Refs → List Slice → Option (List SliceSnapshot × Bool × Refs)
  | r, [] => some ([], true, r)
  | r, slice :: rest =>
    if flushWasAborted then none
    else
      let latest := priorSliceSnap snapTsOf lastPartnSnap slice.id
      let z := sliceSnapshotStep r slice latest tsVbuuid numVbuckets needsCommit forceCommit
      match slicesLoop snapTsOf lastPartnSnap tsVbuuid numVbuckets
          flushWasAborted needsCommit forceCommit z.2 rest with
      | none => none
      | some (sss, ok, r2) =>
        match z.1 with
        | .created ss => some (ss :: sss, ok, r2)
        | .reused ss => some (ss :: sss, ok, r2)
        | .newSnapshotError => some (sss, false, r2)
        | .openSnapshotError => some (sss, false, r2)

/-- `lastIndexSnap.Partitions()[partnId]`, guarded by the source's
non-empty check. -/
def priorPartnSnap (lastIndexSnap : Option IndexSnapshot) (partnId : Nat) :
    Option PartitionSnapshot :=
  match lastIndexSnap with
  | some s => if s.partns.length != 0 then s.partns.find? (fun ps => ps.id == partnId) else none
  | none => none

/-- The partition loop of `createSnapshotForIndex`: look up the prior
partition snapshot and run the slice loop, collecting one
`PartitionSnapshot` per partition. -/
def partitionsLoop (snapTsOf : SnapId → TsVbuuid) (lastIndexSnap : Option IndexSnapshot)
    (tsVbuuid : TsVbuuid) (numVbuckets : Nat)
    (flushWasAborted needsCommit forceCommit : Bool) :
    Refs → List PartnInst → Option (List PartitionSnapshot × Bool × Refs)
  | r, [] => some ([], true, r)
  | r, pi :: rest =>
    let lastPartnSnap := priorPartnSnap lastIndexSnap pi.id
    match slicesLoop snapTsOf lastPartnSnap tsVbuuid numVbuckets
        flushWasAborted needsCommit forceCommit r pi.slices with
    | none => none
    | some (sss, ok1, r1) =>
      match partitionsLoop snapTsOf lastIndexSnap tsVbuuid numVbuckets
          flushWasAborted needsCommit forceCommit r1 rest with
      | none => none
      | some (pss, ok2, r2) => some (⟨pi.id, sss⟩ :: pss, ok1 && ok2, r2)

/-- `createSnapshotForIndex` (storage manager).  `belongsToFlush` stands
for the guard `idxInst.Defn.KeyspaceId(idxInst.Stream) == keyspaceId &&
idxInst.Stream == streamId && idxInst.State != INDEX_STATE_DELETED`.  The
prior snapshot is cloned up front and destroyed on every exit path (the
Go `defer`); on success the built snapshot is published through
`updateSnapMapAndNotify`, and when any slice errored (`isSnapCreated =
false`) it is destroyed instead. -/
def createSnapshotForIndex (st : StorageState) (idxInstId : Nat)
    (belongsToFlush : Bool) (partnMap : List PartnInst)
    (snapTsOf : SnapId → TsVbuuid) (tsVbuuid : TsVbuuid) (numVbuckets : Nat)
    (flushWasAborted needsCommit forceCommit : Bool) (now : Nat) :
    StorageState × List Delivery :=
  if !belongsToFlush then (st, [])
  else
    let lastIndexSnap := lookupEntry st.snapMap idxInstId
    let destroyLast : Refs → Refs := fun r =>
      match lastIndexSnap with
      | some s => DestroyIndexSnapshot r s
      | none => r
    let r0 :=
      match lastIndexSnap with
      | some s => (CloneIndexSnapshot st.refs s).2
      | none => st.refs
    match partitionsLoop snapTsOf lastIndexSnap tsVbuuid numVbuckets
        flushWasAborted needsCommit forceCommit r0 partnMap with
    | none => ({ st with refs := destroyLast r0 }, [])
    | some (partnSnaps, isSnapCreated, r1) =>
      let is : IndexSnapshot := { instId := idxInstId, ts := tsVbuuid, partns := partnSnaps }
      if isSnapCreated then
        let z := updateSnapMapAndNotify { st with refs := r1 } is now numVbuckets
        ({ z.1 with refs := destroyLast z.1.refs }, z.2)
      else
        ({ st with refs := destroyLast (DestroyIndexSnapshot r1 is) }, [])

/-! ## Refcount bookkeeping lemmas -/

theorem count_singleton_eq (a s : SnapId) :
    List.count s [a] = if s = a then 1 else 0 := by
  by_cases h : s = a
  · subst h; simp
  · have hb : (a == s) = false := by
      cases hb2 : (a == s)
      · rfl
      · exact absurd (eq_of_beq hb2).symm h
    simp [List.count_cons, hb, h]

theorem foldl_openSnap_count (l : List SnapId) (r : Refs) (s : SnapId) :
    (l.foldl openSnap r) s = r s + List.count s l := by
  induction l generalizing r with
  | nil => simp
  | cons a l ih =>
    rw [List.foldl_cons, ih, List.count_cons]
    by_cases h : s = a
    · subst h
      have ho : (openSnap r s) s = r s + 1 := by simp [openSnap]
      rw [ho]
      simp only [beq_self_eq_true, if_true]
      omega
    · have ho : (openSnap r a) s = r s := by simp [openSnap, h]
      have hb : (a == s) = false := by
        cases hb2 : (a == s)
        · rfl
        · exact absurd (eq_of_beq hb2).symm h
      rw [ho, hb]
      simp

theorem foldl_closeSnap_count (l : List SnapId) (r : Refs) (s : SnapId)
    (hle : List.count s l ≤ r s) :
    (l.foldl closeSnap r) s = r s - List.count s l := by
  induction l generalizing r with
  | nil => simp
  | cons a l ih =>
    rw [List.foldl_cons, List.count_cons]
    rw [List.count_cons] at hle
    by_cases h : s = a
    · subst h
      have hc : (closeSnap r s) s = r s - 1 := by simp [closeSnap]
      simp only [beq_self_eq_true, if_true] at hle ⊢
      have h1 : List.count s l ≤ (closeSnap r s) s := by rw [hc]; omega
      rw [ih _ h1, hc]
      omega
    · have hc : (closeSnap r a) s = r s := by simp [closeSnap, h]
      have hb : (a == s) = false := by
        cases hb2 : (a == s)
        · rfl
        · exact absurd (eq_of_beq hb2).symm h
      rw [hb] at hle
      simp only [Bool.false_eq_true, if_false] at hle
      have h1 : List.count s l ≤ (closeSnap r a) s := by rw [hc]; omega
      rw [ih _ h1, hc, hb]
      simp

/-- The snap ids contributed by one slice outcome. -/
def outcomeSnapIds : SliceOutcome → List SnapId
  | .created ss => [ss.snap]
  | .reused ss => [ss.snap]
  | .newSnapshotError => []
  | .openSnapshotError => []

/-- `sliceSnapshotStep` returns one of four shapes: a created snapshot
(bumping the new snap id), a reused one (bumping the prior snap id), or
one of the two errors (leaving the counts alone). -/
theorem sliceSnapshotStep_cases (r : Refs) (slice : Slice) (latest : Option (SnapId × TsVbuuid))
    (tsVbuuid : TsVbuuid) (numVbuckets : Nat) (needsCommit forceCommit : Bool) :
    sliceSnapshotStep r slice latest tsVbuuid numVbuckets needsCommit forceCommit =
        (.created ⟨slice.id, slice.newSnapId⟩, openSnap r slice.newSnapId) ∨
    (∃ z0, latest = some z0 ∧
      sliceSnapshotStep r slice latest tsVbuuid numVbuckets needsCommit forceCommit =
        (.reused ⟨slice.id, z0.1⟩, openSnap r z0.1)) ∨
    sliceSnapshotStep r slice latest tsVbuuid numVbuckets needsCommit forceCommit =
        (.newSnapshotError, r) ∨
    sliceSnapshotStep r slice latest tsVbuuid numVbuckets needsCommit forceCommit =
        (.openSnapshotError, r) := by
  rcases latest with _ | z0 <;>
    simp only [sliceSnapshotStep] <;>
    (repeat' split) <;>
    first
      | exact Or.inl rfl
      | exact Or.inr (Or.inl ⟨z0, rfl, rfl⟩)
      | exact Or.inr (Or.inr (Or.inl rfl))
      | exact Or.inr (Or.inr (Or.inr rfl))

/-- `sliceSnapshotStep` only ever bumps the refcount of the slice
snapshot it returns; on an error it leaves the counts alone. -/
theorem sliceSnapshotStep_refs (r : Refs) (slice : Slice) (latest : Option (SnapId × TsVbuuid))
    (tsVbuuid : TsVbuuid) (numVbuckets : Nat) (needsCommit forceCommit : Bool) (s : SnapId) :
    (sliceSnapshotStep r slice latest tsVbuuid numVbuckets needsCommit forceCommit).2 s =
      r s + List.count s
        (outcomeSnapIds (sliceSnapshotStep r slice latest tsVbuuid numVbuckets
          needsCommit forceCommit).1) := by
  rcases sliceSnapshotStep_cases r slice latest tsVbuuid numVbuckets needsCommit forceCommit
    with h | ⟨z0, _, h⟩ | h | h <;> rw [h] <;>
    simp only [outcomeSnapIds, count_singleton_eq, List.count_nil, openSnap] <;>
    first
      | simp
      | · by_cases hb : s = slice.newSnapId
          · subst hb; simp
          · simp [hb]
      | · by_cases hb : s = z0.1
          · subst hb; simp
          · simp [hb]

/-- The slice ids a slice-loop run collects. -/
def sliceSnapIds (sss : List SliceSnapshot) : List SnapId := sss.map (·.snap)

/-- Refcount effect of the slice loop: exactly one bump per collected
slice snapshot. -/
theorem slicesLoop_refs (snapTsOf : SnapId → TsVbuuid) (lastPartnSnap : Option PartitionSnapshot)
    (tsVbuuid : TsVbuuid) (numVbuckets : Nat) (needsCommit forceCommit : Bool)
    (slices : List Slice) :
    ∀ (r : Refs) (z : List SliceSnapshot × Bool × Refs),
      slicesLoop snapTsOf lastPartnSnap tsVbuuid numVbuckets false needsCommit forceCommit
        r slices = some z →
      ∀ s, z.2.2 s = r s + List.count s (sliceSnapIds z.1) := by
  induction slices with
  | nil =>
    intro r z h s
    simp only [slicesLoop] at h
    cases h
    simp [sliceSnapIds]
  | cons slice rest ih =>
    intro r z h s
    simp only [slicesLoop, Bool.false_eq_true, if_false] at h
    have hstep := sliceSnapshotStep_refs r slice
      (priorSliceSnap snapTsOf lastPartnSnap slice.id)
      tsVbuuid numVbuckets needsCommit forceCommit s
    cases hrec : slicesLoop snapTsOf lastPartnSnap tsVbuuid numVbuckets false needsCommit
        forceCommit (sliceSnapshotStep r slice (priorSliceSnap snapTsOf lastPartnSnap slice.id)
          tsVbuuid numVbuckets needsCommit forceCommit).2 rest with
    | none => rw [hrec] at h; cases h
    | some z1 =>
      rw [hrec] at h
      obtain ⟨sss1, ok1, r1⟩ := z1
      have hmid := ih _ (sss1, ok1, r1) hrec s
      cases hout : (sliceSnapshotStep r slice (priorSliceSnap snapTsOf lastPartnSnap slice.id)
          tsVbuuid numVbuckets needsCommit forceCommit).1 <;>
        rw [hout] at h hstep <;>
        simp only [outcomeSnapIds] at hstep <;>
        cases h <;>
        simp only [sliceSnapIds, List.map_cons, List.count_cons, List.count_nil,
          count_singleton_eq] at hmid hstep ⊢ <;>
        [skip; skip; omega; omega] <;>
        · rename_i ss
          by_cases hb : s = ss.snap
          · subst hb
            simp only [beq_self_eq_true, if_true] at hmid hstep ⊢
            omega
          · have hb2 : (ss.snap == s) = false := by
              cases hb3 : (ss.snap == s)
              · rfl
              · exact absurd (eq_of_beq hb3).symm hb
            simp only [hb2, Bool.false_eq_true, if_false, if_neg hb] at hmid hstep ⊢
            omega

/-- Refcount effect of the partition loop. -/
theorem partitionsLoop_refs (snapTsOf : SnapId → TsVbuuid) (lastIndexSnap : Option IndexSnapshot)
    (tsVbuuid : TsVbuuid) (numVbuckets : Nat) (needsCommit forceCommit : Bool)
    (partnMap : List PartnInst) :
    ∀ (r : Refs) (z : List PartitionSnapshot × Bool × Refs),
      partitionsLoop snapTsOf lastIndexSnap tsVbuuid numVbuckets false needsCommit forceCommit
        r partnMap = some z →
      ∀ s, z.2.2 s = r s + List.count s (z.1.flatMap fun ps => ps.slices.map (·.snap)) := by
  induction partnMap with
  | nil =>
    intro r z h s
    simp only [partitionsLoop] at h
    cases h
    simp
  | cons pi rest ih =>
    intro r z h s
    simp only [partitionsLoop] at h
    cases hsl : slicesLoop snapTsOf (priorPartnSnap lastIndexSnap pi.id)
        tsVbuuid numVbuckets false needsCommit forceCommit r pi.slices with
    | none => rw [hsl] at h; cases h
    | some z1 =>
      rw [hsl] at h
      obtain ⟨sss, ok1, r1⟩ := z1
      dsimp only at h
      cases hpl : partitionsLoop snapTsOf lastIndexSnap tsVbuuid numVbuckets false needsCommit
          forceCommit r1 rest with
      | none => rw [hpl] at h; cases h
      | some z2 =>
        rw [hpl] at h
        obtain ⟨pss2, ok2, r2⟩ := z2
        cases h
        have h1 := slicesLoop_refs snapTsOf (priorPartnSnap lastIndexSnap pi.id)
          tsVbuuid numVbuckets needsCommit forceCommit
          pi.slices r (sss, ok1, r1) hsl s
        have h2 := ih r1 (pss2, ok2, r2) hpl s
        simp only [List.flatMap_cons, List.count_append, sliceSnapIds] at h1 h2 ⊢
        omega

/-! ## Claim C1 -/

/-- C1 (counterexample): the claim states that for a needs-commit flush
(`Disk`/`DiskOso`) over a slice with a prior snapshot, a new storage
snapshot is created exactly when the seqnos advanced AND the slice is
dirty.  The code's condition is `(slice.IsDirty() || needsCommit) &&
ts.GreaterThan(snapTs)`; with `needsCommit = true` the dirty bit is
irrelevant: here a clean slice whose flush timestamp advanced still gets
a new snapshot, contradicting the claim's "AND the slice is dirty". -/
theorem C1_counterexample :
    commitFlags SnapType.diskSnap = (true, false) ∧
    (⟨1, false, true, true, 42, none⟩ : Slice).isDirty = false ∧
    tsGreaterThan [2] [1] = true ∧
    (sliceSnapshotStep (fun _ => 0) ⟨1, false, true, true, 42, none⟩
        (some (9, ⟨[1], [7], 0, .diskSnap⟩)) ⟨[2], [7], 0, .diskSnap⟩ 1 true false).1 =
      .created ⟨1, 42⟩ := by
  refine ⟨rfl, rfl, by decide, rfl⟩

/-- C1 (amended): for a flush whose timestamp has snapshot type `Disk` or
`DiskOso` (so `needsCommit = true`, `forceCommit = false`) and a slice
with a prior snapshot and error-free storage calls, the lifecycle manager
creates a new storage snapshot exactly when the flush timestamp's seqnos
are pointwise ≥ the prior snapshot's with at least one strictly greater —
regardless of the slice's dirty bit, which the needs-commit disjunct
short-circuits; in all other non-forced cases it reuses the prior slice
snapshot, incrementing its refcount. -/
theorem C1_amended (r : Refs) (slice : Slice) (sid : SnapId) (prior tsVbuuid : TsVbuuid)
    (numVbuckets : Nat)
    (hsnap : tsVbuuid.snapType = .diskSnap ∨ tsVbuuid.snapType = .diskSnapOso)
    (hnew : slice.newSnapshotOk = true) (hopen : slice.openSnapshotOk = true) :
    commitFlags tsVbuuid.snapType = (true, false) ∧
    (tsGreaterThan tsVbuuid.seqnos prior.seqnos = true →
      sliceSnapshotStep r slice (some (sid, prior)) tsVbuuid numVbuckets true false =
        (.created ⟨slice.id, slice.newSnapId⟩, openSnap r slice.newSnapId)) ∧
    (tsGreaterThan tsVbuuid.seqnos prior.seqnos = false →
      sliceSnapshotStep r slice (some (sid, prior)) tsVbuuid numVbuckets true false =
        (.reused ⟨slice.id, sid⟩, openSnap r sid)) ∧
    openSnap r sid sid = r sid + 1 := by
  refine ⟨?_, ?_, ?_, by simp [openSnap]⟩
  · rcases hsnap with h | h <;> rw [h] <;> rfl
  · intro hgt
    simp [sliceSnapshotStep, hgt, hnew, hopen]
  · intro hgt
    simp [sliceSnapshotStep, hgt]

theorem C1_amended_witness :
    sliceSnapshotStep (fun _ => 0) ⟨1, true, true, true, 42, none⟩
        (some (9, ⟨[1], [7], 0, .diskSnap⟩)) ⟨[2], [7], 0, .diskSnap⟩ 1 true false =
      (.created ⟨1, 42⟩, openSnap (fun _ => 0) 42) :=
  (C1_amended (fun _ => 0) ⟨1, true, true, true, 42, none⟩ 9 ⟨[1], [7], 0, .diskSnap⟩
      ⟨[2], [7], 0, .diskSnap⟩ 1 (Or.inl rfl) rfl rfl).2.1 (by decide)

/-! ## Claim C3 -/

/-- C3: when any slice's `NewSnapshot` or `OpenSnapshot` errors during a
(non-aborted) snapshot creation pass (`isSnapCreated = false` in the
loop's result), the erroring slice was skipped and `createSnapshotForIndex`
destroys the half-built snapshot instead of installing it: no waiter is
notified, the published snapshot map, waiter map and instance map are
untouched, and every storage snapshot's refcount is exactly what it was
(nothing is leaked).  `common.CrashOnError` is not under `src/` and is
modelled from the spec's propagation policy (§7) as non-fatal: the slice
is skipped and processing continues. -/
theorem C3_slice_error_skips_and_preserves
    (st : StorageState) (idxInstId : Nat) (partnMap : List PartnInst)
    (snapTsOf : SnapId → TsVbuuid) (tsVbuuid : TsVbuuid) (numVbuckets : Nat)
    (needsCommit forceCommit : Bool) (now : Nat)
    (pss : List PartitionSnapshot) (r1 : Refs)
    (hrun : partitionsLoop snapTsOf (lookupEntry st.snapMap idxInstId) tsVbuuid numVbuckets
        false needsCommit forceCommit
        (match lookupEntry st.snapMap idxInstId with
         | some s => (CloneIndexSnapshot st.refs s).2
         | none => st.refs) partnMap = some (pss, false, r1)) :
    (createSnapshotForIndex st idxInstId true partnMap snapTsOf tsVbuuid numVbuckets
        false needsCommit forceCommit now).2 = [] ∧
    (createSnapshotForIndex st idxInstId true partnMap snapTsOf tsVbuuid numVbuckets
        false needsCommit forceCommit now).1.snapMap = st.snapMap ∧
    (createSnapshotForIndex st idxInstId true partnMap snapTsOf tsVbuuid numVbuckets
        false needsCommit forceCommit now).1.waitersMap = st.waitersMap ∧
    (createSnapshotForIndex st idxInstId true partnMap snapTsOf tsVbuuid numVbuckets
        false needsCommit forceCommit now).1.instMap = st.instMap ∧
    ∀ s, (createSnapshotForIndex st idxInstId true partnMap snapTsOf tsVbuuid numVbuckets
        false needsCommit forceCommit now).1.refs s = st.refs s := by
  have hexp : createSnapshotForIndex st idxInstId true partnMap snapTsOf tsVbuuid numVbuckets
      false needsCommit forceCommit now =
      ({ st with refs :=
          (match lookupEntry st.snapMap idxInstId with
           | some prior => DestroyIndexSnapshot (DestroyIndexSnapshot r1
               { instId := idxInstId, ts := tsVbuuid, partns := pss }) prior
           | none => DestroyIndexSnapshot r1
               { instId := idxInstId, ts := tsVbuuid, partns := pss }) }, []) := by
    simp only [createSnapshotForIndex, hrun]
    rfl
  rw [hexp]
  refine ⟨rfl, rfl, rfl, rfl, ?_⟩
  intro s
  have hloop := partitionsLoop_refs snapTsOf (lookupEntry st.snapMap idxInstId) tsVbuuid
    numVbuckets needsCommit forceCommit partnMap _ (pss, false, r1) hrun s
  cases hlook : lookupEntry st.snapMap idxInstId with
  | none =>
    have hloop2 : r1 s = st.refs s +
        List.count s (pss.flatMap fun ps => ps.slices.map (·.snap)) := by
      rw [hlook] at hloop; exact hloop
    show DestroyIndexSnapshot r1 { instId := idxInstId, ts := tsVbuuid, partns := pss } s
        = st.refs s
    have hd : DestroyIndexSnapshot r1 { instId := idxInstId, ts := tsVbuuid, partns := pss } s =
        r1 s - List.count s (pss.flatMap fun ps => ps.slices.map (·.snap)) :=
      foldl_closeSnap_count
        (IndexSnapshot.snapIds { instId := idxInstId, ts := tsVbuuid, partns := pss }) r1 s
        (by show List.count s (pss.flatMap fun ps => ps.slices.map (·.snap)) ≤ r1 s
            omega)
    rw [hd]
    omega
  | some prior =>
    have hloop2 : r1 s = (CloneIndexSnapshot st.refs prior).2 s +
        List.count s (pss.flatMap fun ps => ps.slices.map (·.snap)) := by
      rw [hlook] at hloop; exact hloop
    have hclone : (CloneIndexSnapshot st.refs prior).2 s =
        st.refs s + List.count s prior.snapIds := foldl_openSnap_count prior.snapIds st.refs s
    show DestroyIndexSnapshot (DestroyIndexSnapshot r1
        { instId := idxInstId, ts := tsVbuuid, partns := pss }) prior s = st.refs s
    have hd1 : DestroyIndexSnapshot r1 { instId := idxInstId, ts := tsVbuuid, partns := pss } s =
        r1 s - List.count s (pss.flatMap fun ps => ps.slices.map (·.snap)) :=
      foldl_closeSnap_count
        (IndexSnapshot.snapIds { instId := idxInstId, ts := tsVbuuid, partns := pss }) r1 s
        (by show List.count s (pss.flatMap fun ps => ps.slices.map (·.snap)) ≤ r1 s
            omega)
    have hd2 : DestroyIndexSnapshot (DestroyIndexSnapshot r1
        { instId := idxInstId, ts := tsVbuuid, partns := pss }) prior s =
        DestroyIndexSnapshot r1 { instId := idxInstId, ts := tsVbuuid, partns := pss } s -
          List.count s prior.snapIds :=
      foldl_closeSnap_count prior.snapIds _ s (by omega)
    rw [hd2, hd1]
    omega

theorem C3_witness :
    (createSnapshotForIndex ⟨[(1, .active)], [], [], fun _ => 0⟩ 1 true
        [⟨0, [⟨5, true, false, true, 42, none⟩]⟩] (fun _ => ⟨[], [], 0, .noSnap⟩)
        ⟨[5], [7], 0, .diskSnap⟩ 1 false true false 0).2 = [] ∧
    (createSnapshotForIndex ⟨[(1, .active)], [], [], fun _ => 0⟩ 1 true
        [⟨0, [⟨5, true, false, true, 42, none⟩]⟩] (fun _ => ⟨[], [], 0, .noSnap⟩)
        ⟨[5], [7], 0, .diskSnap⟩ 1 false true false 0).1.snapMap = [] ∧
    (createSnapshotForIndex ⟨[(1, .active)], [], [], fun _ => 0⟩ 1 true
        [⟨0, [⟨5, true, false, true, 42, none⟩]⟩] (fun _ => ⟨[], [], 0, .noSnap⟩)
        ⟨[5], [7], 0, .diskSnap⟩ 1 false true false 0).1.refs 42 = 0 := by
  have h := C3_slice_error_skips_and_preserves ⟨[(1, .active)], [], [], fun _ => 0⟩ 1
    [⟨0, [⟨5, true, false, true, 42, none⟩]⟩] (fun _ => ⟨[], [], 0, .noSnap⟩)
    ⟨[5], [7], 0, .diskSnap⟩ 1 true false 0 [⟨0, []⟩] (fun _ => 0) rfl
  exact ⟨h.1, h.2.1, h.2.2.2.2 42⟩

/-! ## Rollback engine (`findRollbackSnapshot`, `rollbackToSnapshot`) -/

/-- Modelled from the spec: the metadata of one storage snapshot as
listed by `Slice.GetSnapshots()` — its timestamp and its OSO flag
(`SnapshotInfo` is not under `src/`; spec §3, §4.3). -/
structure SnapshotInfo where
  ts : TsVbuuid
  isOSO : Bool
  deriving DecidableEq, Repr

/-- Modelled from the spec: `info.ts ≤ rollbackTs` "on every pinned vb"
(spec §4.3) — pointwise ≤ on the seqno vectors. -/
def tsLE (a b : TsVbuuid) : Bool :=
  (a.seqnos.zip b.seqnos).all fun p => p.1 ≤ p.2

/-- Modelled from the spec: `SnapshotInfoContainer.GetLatest` — the infos
list is ordered newest first, so the latest is its head. -/
def getLatest (infos : List SnapshotInfo) : Option SnapshotInfo :=
  infos.head?

/-- Modelled from the spec: `SnapshotInfoContainer.GetOlderThanTS` —
"pick the newest `info` with `info.ts ≤ rollbackTs` on every pinned vb"
(spec §4.3): the first qualifying info of the newest-first list. -/
def getOlderThanTS (infos : List SnapshotInfo) (rollbackTs : TsVbuuid) : Option SnapshotInfo :=
  infos.find? fun si => tsLE si.ts rollbackTs

/-- The inner loop of `findRollbackSnapshot`'s zero-seqno branch (storage
manager): walk the newest-first list; at the entry equal to the last used
rollback timestamp take the next (older) one if it exists, else `nil`;
if no entry matches, `snapInfo` keeps its `nil` default. -/
def nextOlderThanUsed (lastTs : TsVbuuid) : List SnapshotInfo → Option SnapshotInfo
  | [] => none
  | si :: rest => if tsEqual lastTs si.ts then rest.head? else nextOlderThanUsed lastTs rest

/-- `findRollbackSnapshot` (storage manager): no pick if any info is an
OSO snapshot; on a zero-seqno rollback timestamp consult
`LastRollbackTs`; otherwise the newest info whose timestamp is ≤ the
rollback timestamp. -/
def findRollbackSnapshot (infos : List SnapshotInfo) (lastRollbackTs : Option TsVbuuid)
    (rollbackTs : TsVbuuid) : Option SnapshotInfo :=
  if infos.any (·.isOSO) then none
  else if tsHasZeroSeqNum rollbackTs then
    match getLatest infos with
    | none => none
    | some latest =>
      match lastRollbackTs with
      | none => some latest
      | some lastTs => nextOlderThanUsed lastTs infos
  else
    getOlderThanTS infos rollbackTs

/-- The storage call performed by `rollbackToSnapshot`. -/
inductive RollbackAction
  | toSnapshot (info : SnapshotInfo)
  | toZero
  deriving DecidableEq, Repr

/-- `rollbackToSnapshot` (storage manager): with a pick, call
`slice.Rollback(pick)` and report its timestamp as the restart timestamp
(recording it as `LastRollbackTs` when `markAsUsed`); without one, call
`slice.RollbackToZero()`, report `nil` and clear `LastRollbackTs`.
(The error paths of the external `Slice` calls are not modelled; the
source propagates them unchanged.)  Returns (action, restartTs,
new `LastRollbackTs`). -/
def rollbackToSnapshot (snapInfo : Option SnapshotInfo) (markAsUsed : Bool)
    (lastRollbackTs : Option TsVbuuid) :
    RollbackAction × Option TsVbuuid × Option TsVbuuid :=
  match snapInfo with
  | some info =>
    (.toSnapshot info, some info.ts, if markAsUsed then some info.ts else lastRollbackTs)
  | none => (.toZero, none, none)

theorem find?_newest {α : Type} (p : α → Bool) :
    ∀ (l : List α) (a : α), l.find? p = some a →
      ∃ pre post, l = pre ++ a :: post ∧ (∀ x ∈ pre, p x = false) ∧ p a = true := by
  intro l
  induction l with
  | nil => intro a h; cases h
  | cons b l ih =>
    intro a h
    rw [List.find?_cons] at h
    cases hp : p b with
    | true =>
      rw [hp] at h
      cases h
      exact ⟨[], l, rfl, by simp, hp⟩
    | false =>
      rw [hp] at h
      obtain ⟨pre, post, hl, hpre, hpa⟩ := ih a h
      refine ⟨b :: pre, post, by rw [hl]; rfl, ?_, hpa⟩
      intro x hx
      rcases List.mem_cons.mp hx with hx | hx
      · subst hx; exact hp
      · exact hpre x hx

/-! ## Claim C2 -/

/-- C2: per slice of a rollback request — (1) if any snapshot info listed
by the slice is an OSO snapshot, the search returns no pick; (2) when the
rollback timestamp has no zero seqno, the search picks the newest info
whose timestamp is ≤ the rollback timestamp (no newer info qualifies, and
when there is no pick no info qualifies); (3) with a pick,
`slice.Rollback(pick)` is called and the restart timestamp is the pick's
timestamp; without one, `slice.RollbackToZero()` is called and the
restart timestamp is nil. -/
theorem C2_rollback_snapshot_selection
    (infos : List SnapshotInfo) (lastRbTs : Option TsVbuuid) (rollbackTs : TsVbuuid) :
    ((∃ si ∈ infos, si.isOSO = true) →
      findRollbackSnapshot infos lastRbTs rollbackTs = none) ∧
    (tsHasZeroSeqNum rollbackTs = false →
      (∀ pick, findRollbackSnapshot infos lastRbTs rollbackTs = some pick →
        tsLE pick.ts rollbackTs = true ∧
        ∃ pre post, infos = pre ++ pick :: post ∧
          ∀ si ∈ pre, tsLE si.ts rollbackTs = false) ∧
      ((∀ si ∈ infos, si.isOSO = false) →
        findRollbackSnapshot infos lastRbTs rollbackTs = none →
        ∀ si ∈ infos, tsLE si.ts rollbackTs = false)) ∧
    (∀ pick, rollbackToSnapshot (some pick) (tsHasZeroSeqNum rollbackTs) lastRbTs =
      (.toSnapshot pick, some pick.ts,
        if tsHasZeroSeqNum rollbackTs then some pick.ts else lastRbTs)) ∧
    rollbackToSnapshot none (tsHasZeroSeqNum rollbackTs) lastRbTs = (.toZero, none, none) := by
  refine ⟨?_, ?_, fun pick => rfl, rfl⟩
  · rintro ⟨si, hmem, hoso⟩
    have hany : infos.any (·.isOSO) = true := List.any_eq_true.mpr ⟨si, hmem, hoso⟩
    unfold findRollbackSnapshot
    rw [hany]
    rfl
  · intro hzero
    constructor
    · intro pick hpick
      unfold findRollbackSnapshot at hpick
      by_cases hany : infos.any (·.isOSO) = true
      · rw [hany] at hpick; cases hpick
      · rw [Bool.not_eq_true] at hany
        rw [hany, hzero] at hpick
        simp only [Bool.false_eq_true, if_false] at hpick
        obtain ⟨pre, post, hl, hpre, hp⟩ := find?_newest _ infos pick hpick
        exact ⟨hp, pre, post, hl, hpre⟩
    · intro hno hnone si hmem
      unfold findRollbackSnapshot at hnone
      by_cases hany : infos.any (·.isOSO) = true
      · rw [List.any_eq_true] at hany
        obtain ⟨x, hx, hxo⟩ := hany
        rw [hno x hx] at hxo
        cases hxo
      · rw [Bool.not_eq_true] at hany
        rw [hany, hzero] at hnone
        simp only [Bool.false_eq_true, if_false] at hnone
        have := List.find?_eq_none.mp hnone si hmem
        simpa using this

theorem C2_witness :
    findRollbackSnapshot [⟨⟨[30], [1], 0, .diskSnap⟩, true⟩] none ⟨[22], [1], 0, .diskSnap⟩ =
      none ∧
    rollbackToSnapshot (some ⟨⟨[20], [1], 0, .diskSnap⟩, false⟩) false none =
      (.toSnapshot ⟨⟨[20], [1], 0, .diskSnap⟩, false⟩, some ⟨[20], [1], 0, .diskSnap⟩, none) := by
  have h := C2_rollback_snapshot_selection [⟨⟨[30], [1], 0, .diskSnap⟩, true⟩] none
    ⟨[22], [1], 0, .diskSnap⟩
  refine ⟨h.1 ⟨⟨⟨[30], [1], 0, .diskSnap⟩, true⟩, by decide, rfl⟩, ?_⟩
  exact h.2.2.1 ⟨⟨[20], [1], 0, .diskSnap⟩, false⟩

/-! ## Claim C4: waiter drain vs snapshot reconstruction in `handleRollback`

After the per-instance rollback work, `handleRollback` (storage manager)
spawns the waiter drain in a fresh goroutine (`go func() { ... w.Error(
ErrIndexRollback) ... }()`), then calls `sm.updateIndexSnapMap(...)`
(rebuilding the snapshot containers from disk) and finally replies with
`MsgRollbackDone`.  There is no join or lock ordering the spawned drain
before the reconstruction, so the two interleave. -/

inductive RollbackEvent
  | spawnDrain
  | deliverRolledBack (wid : Nat)
  | reconstructSnapshots
  | replyRollbackDone
  deriving DecidableEq, Repr

/-- The main task's events after the spawn: reconstruct, then reply. -/
def rollbackMainTail : List RollbackEvent :=
  [.reconstructSnapshots, .replyRollbackDone]

/-- The spawned drain's events: one `ErrIndexRollback` delivery per
pending waiter of the matching instances. -/
def drainEvents (waiters : List Nat) : List RollbackEvent :=
  waiters.map .deliverRolledBack

/-- `Interleave a b c`: `c` is an interleaving of the two concurrent
tasks' event sequences `a` and `b`. -/
inductive Interleave : List RollbackEvent → List RollbackEvent → List RollbackEvent → Prop
  | nil : Interleave [] [] []
  | left {x xs ys zs} : Interleave xs ys zs → Interleave (x :: xs) ys (x :: zs)
  | right {y xs ys zs} : Interleave xs ys zs → Interleave xs (y :: ys) (y :: zs)

/-- The executions of the tail of `handleRollback`: the spawn comes
first, after which the drain's deliveries interleave arbitrarily with the
main task's reconstruction and reply. -/
def RollbackExecution (waiters : List Nat) (t : List RollbackEvent) : Prop :=
  ∃ u, Interleave rollbackMainTail (drainEvents waiters) u ∧ t = .spawnDrain :: u

/-- C4 (counterexample): the claim requires every pending waiter's
`IndexRolledBack` delivery to happen before the snapshot containers are
reconstructed.  The drain is only spawned — `handleRollback` proceeds to
`updateIndexSnapMap` without waiting — so the execution in which
reconstruction (index 1) precedes the delivery (index 2) is legal. -/
theorem C4_counterexample :
    RollbackExecution [0]
      [.spawnDrain, .reconstructSnapshots, .deliverRolledBack 0, .replyRollbackDone] ∧
    [RollbackEvent.spawnDrain, .reconstructSnapshots, .deliverRolledBack 0,
        .replyRollbackDone].get? 1 = some .reconstructSnapshots ∧
    [RollbackEvent.spawnDrain, .reconstructSnapshots, .deliverRolledBack 0,
        .replyRollbackDone].get? 2 = some (.deliverRolledBack 0) :=
  ⟨⟨[.reconstructSnapshots, .deliverRolledBack 0, .replyRollbackDone],
    .left (.right (.left .nil)), rfl⟩, rfl, rfl⟩

/-- C4 (amended): during a rollback the waiter drain is initiated —
spawned — before the snapshot containers are reconstructed (the spawn is
the first event of every execution), but it runs concurrently with the
reconstruction: both the delivery-before-reconstruction and the
reconstruction-before-delivery interleavings are legal, so no waiter is
guaranteed to be drained before a reconstructed snapshot is published. -/
theorem C4_amended :
    (∀ (ws : List Nat) (t : List RollbackEvent), RollbackExecution ws t →
      t.head? = some .spawnDrain) ∧
    (∃ t, RollbackExecution [0] t ∧
      t.get? 1 = some (.deliverRolledBack 0) ∧ t.get? 2 = some .reconstructSnapshots) ∧
    (∃ t, RollbackExecution [0] t ∧
      t.get? 1 = some .reconstructSnapshots ∧ t.get? 2 = some (.deliverRolledBack 0)) := by
  refine ⟨?_, ?_, ?_⟩
  · rintro ws t ⟨u, hu, rfl⟩
    rfl
  · exact ⟨[.spawnDrain, .deliverRolledBack 0, .reconstructSnapshots, .replyRollbackDone],
      ⟨[.deliverRolledBack 0, .reconstructSnapshots, .replyRollbackDone],
        .right (.left (.left .nil)), rfl⟩, rfl, rfl⟩
  · exact ⟨[.spawnDrain, .reconstructSnapshots, .deliverRolledBack 0, .replyRollbackDone],
      ⟨[.reconstructSnapshots, .deliverRolledBack 0, .replyRollbackDone],
        .left (.right (.left .nil)), rfl⟩, rfl, rfl⟩

theorem C4_amended_witness :
    ([.spawnDrain, .deliverRolledBack 0, .reconstructSnapshots,
        .replyRollbackDone] : List RollbackEvent).head? = some .spawnDrain :=
  C4_amended.1 [0] _ ⟨[.deliverRolledBack 0, .reconstructSnapshots, .replyRollbackDone],
    .right (.left (.left .nil)), rfl⟩

/-! ## Merge / prune engine (`handleIndexMergeSnapshot`, `handleIndexPruneSnapshot`) -/

/-- The reply `handleIndexMergeSnapshot` sends to the supervisor:
`MsgSuccess`, or `MsgError` with `ERROR_STORAGE_MGR_MERGE_SNAPSHOT_FAIL`
at severity `FATAL`. -/
inductive MergeResult
  | success
  | mergeFailed
  deriving DecidableEq, Repr

/-- Go map assignment `target.Partitions()[snap.PartitionId()] = snap`:
replace the entry with the same id, else add it. -/
def setPartn (pss : List PartitionSnapshot) (ps : PartitionSnapshot) :
    List PartitionSnapshot :=
  if pss.any (fun q => q.id == ps.id) then
    pss.map fun q => if q.id == ps.id then ps else q
  else pss ++ [ps]

/-- `handleIndexMergeSnapshot` (storage manager): validate under both
containers' locks — source container present (else plain success), and
when the target container exists: source timestamp `EqualOrGreater` the
target's, the requested partitions exactly covered by the source's, and
no partition owned by both — any violation replies
`SnapshotMergeFailed` (fatal) and changes nothing.  On success the
target's clone (refcount-bumped), spliced with the clone of the source
restricted to the requested partitions, is published via
`updateSnapMapAndNotify`; the source's snapshot is not destroyed here. -/
def handleIndexMergeSnapshot (st : StorageState) (srcInstId tgtInstId : Nat)
    (partitions : List Nat) (now numVbuckets : Nat) :
    StorageState × MergeResult × List Delivery :=
  match lookupEntry st.snapMap srcInstId with
  | none => (st, .success, [])
  | some source =>
    match lookupEntry st.snapMap tgtInstId with
    | none =>
      -- no target container: publish a refcount-bumped clone of the source
      let z := deepCloneIndexSnapshot st.refs source false []
      let u := updateSnapMapAndNotify { st with refs := z.2 } z.1 now numVbuckets
      (u.1, .success, u.2)
    | some target =>
      if !(tsEqualOrGreater source.ts target.ts) then
        (st, .mergeFailed, [])
      else if source.partns.length != 0 &&
          !(partitions.countP (fun pid => source.partns.any (fun sp => sp.id == pid))
              == partitions.length &&
            partitions.countP (fun pid => source.partns.any (fun sp => sp.id == pid))
              == source.partns.length) then
        (st, .mergeFailed, [])
      else if source.partns.length != 0 &&
          source.partns.any (fun sp => target.partns.any (fun tp => tp.id == sp.id)) then
        (st, .mergeFailed, [])
      else
        let zt := deepCloneIndexSnapshot st.refs target false []
        if partitions.length != 0 then
          let zs := deepCloneIndexSnapshot zt.2 source true partitions
          let merged := { zt.1 with partns := zs.1.partns.foldl setPartn zt.1.partns }
          let u := updateSnapMapAndNotify { st with refs := zs.2 } merged now numVbuckets
          (u.1, .success, u.2)
        else
          let u := updateSnapMapAndNotify { st with refs := zt.2 } zt.1 now numVbuckets
          (u.1, .success, u.2)

/-- `handleIndexPruneSnapshot` (storage manager): with no container,
plain success; else compute `kept` — the current partitions NOT listed in
the request — deep-clone the snapshot restricted to `kept` (bumping the
kept slices' refcounts) and publish it via `updateSnapMapAndNotify`. -/
def handleIndexPruneSnapshot (st : StorageState) (instId : Nat) (partitions : List Nat)
    (now numVbuckets : Nat) : StorageState × List Delivery :=
  match lookupEntry st.snapMap instId with
  | none => (st, [])
  | some snapshot =>
    let kept := (snapshot.partns.filter fun sp => !partitions.contains sp.id).map (·.id)
    let z := deepCloneIndexSnapshot st.refs snapshot true kept
    updateSnapMapAndNotify { st with refs := z.2 } z.1 now numVbuckets

/-! ## Claim C5 -/

/-- C5: when the target instance's snapshot container exists and the
source snapshot's timestamp is not componentwise ≥ the target snapshot's,
the merge fails fatally with `SnapshotMergeFailed` surfaced to the
supervisor, and neither instance's published snapshot (indeed nothing in
the state) is changed. -/
theorem C5_merge_timestamp_precondition (st : StorageState) (srcInstId tgtInstId : Nat)
    (partitions : List Nat) (now numVbuckets : Nat) (source target : IndexSnapshot)
    (hsrc : lookupEntry st.snapMap srcInstId = some source)
    (htgt : lookupEntry st.snapMap tgtInstId = some target)
    (hts : tsEqualOrGreater source.ts target.ts = false) :
    handleIndexMergeSnapshot st srcInstId tgtInstId partitions now numVbuckets =
      (st, .mergeFailed, []) := by
  unfold handleIndexMergeSnapshot
  rw [hsrc, htgt]
  dsimp only
  rw [hts]
  rfl

theorem C5_witness :
    handleIndexMergeSnapshot
      ⟨[(1, .active), (2, .active)],
        [(1, ⟨1, ⟨[1], [7], 0, .diskSnap⟩, [], false⟩),
         (2, ⟨2, ⟨[2], [7], 0, .diskSnap⟩, [], false⟩)],
        [], fun _ => 0⟩ 1 2 [0] 0 1 =
      (⟨[(1, .active), (2, .active)],
        [(1, ⟨1, ⟨[1], [7], 0, .diskSnap⟩, [], false⟩),
         (2, ⟨2, ⟨[2], [7], 0, .diskSnap⟩, [], false⟩)],
        [], fun _ => 0⟩, .mergeFailed, []) :=
  C5_merge_timestamp_precondition _ 1 2 [0] 0 1
    ⟨1, ⟨[1], [7], 0, .diskSnap⟩, [], false⟩ ⟨2, ⟨[2], [7], 0, .diskSnap⟩, [], false⟩
    rfl rfl (by decide)

/-! ## Characterisation of the deep clone and of map updates -/

theorem deepCloneFold_spec (doPrune : Bool) (keep : List Nat) (l : List PartitionSnapshot) :
    ∀ acc : List PartitionSnapshot × Refs,
      (l.foldl (deepCloneStep doPrune keep) acc).1 =
        acc.1 ++ l.filter (fun ps => if !doPrune then true else keep.contains ps.id) ∧
      ∀ s, (l.foldl (deepCloneStep doPrune keep) acc).2 s =
        acc.2 s + List.count s
          ((l.filter (fun ps => if !doPrune then true else keep.contains ps.id)).flatMap
            fun ps => ps.slices.map (·.snap)) := by
  induction l with
  | nil => intro acc; exact ⟨by simp, fun s => by simp⟩
  | cons p l ih =>
    intro acc
    rw [List.foldl_cons]
    cases hcond : (if !doPrune then true else keep.contains p.id) with
    | true =>
      have hstep : deepCloneStep doPrune keep acc p =
          (acc.1 ++ [p], p.slices.foldl (fun rr ss => openSnap rr ss.snap) acc.2) := by
        unfold deepCloneStep
        rw [hcond]
        rfl
      have hfil : List.filter (fun ps => if !doPrune then true else keep.contains ps.id)
          (p :: l) =
          p :: List.filter (fun ps => if !doPrune then true else keep.contains ps.id) l := by
        simp only [List.filter_cons, hcond, if_true]
      rw [hstep, hfil]
      obtain ⟨ih1, ih2⟩ :=
        ih (acc.1 ++ [p], p.slices.foldl (fun rr ss => openSnap rr ss.snap) acc.2)
      constructor
      · rw [ih1]
        simp
      · intro s
        rw [ih2 s]
        have hopen : (p.slices.foldl (fun rr ss => openSnap rr ss.snap) acc.2) s =
            acc.2 s + List.count s (p.slices.map (·.snap)) := by
          rw [← List.foldl_map]
          exact foldl_openSnap_count _ _ _
        show (p.slices.foldl (fun rr ss => openSnap rr ss.snap) acc.2) s + _ = _
        rw [hopen, List.flatMap_cons, List.count_append]
        omega
    | false =>
      have hstep : deepCloneStep doPrune keep acc p = acc := by
        unfold deepCloneStep
        rw [hcond]
        rfl
      have hfil : List.filter (fun ps => if !doPrune then true else keep.contains ps.id)
          (p :: l) =
          List.filter (fun ps => if !doPrune then true else keep.contains ps.id) l := by
        simp only [List.filter_cons, hcond, Bool.false_eq_true, if_false]
      rw [hstep, hfil]
      exact ih acc

/-- `deepCloneIndexSnapshot` keeps exactly the requested partitions, in
order, and bumps the refcount of each cloned slice snapshot once. -/
theorem deepClone_spec (r : Refs) (is : IndexSnapshot) (doPrune : Bool) (keep : List Nat) :
    (deepCloneIndexSnapshot r is doPrune keep).1.partns =
      is.partns.filter (fun ps => if !doPrune then true else keep.contains ps.id) ∧
    ∀ s, (deepCloneIndexSnapshot r is doPrune keep).2 s =
      r s + List.count s ((deepCloneIndexSnapshot r is doPrune keep).1.snapIds) := by
  have h := deepCloneFold_spec doPrune keep is.partns ([], r)
  have h1 : (deepCloneIndexSnapshot r is doPrune keep).1.partns =
      is.partns.filter (fun ps => if !doPrune then true else keep.contains ps.id) := by
    show (is.partns.foldl (deepCloneStep doPrune keep) ([], r)).1 = _
    rw [h.1]
    simp
  refine ⟨h1, ?_⟩
  intro s
  have hids : (deepCloneIndexSnapshot r is doPrune keep).1.snapIds =
      (is.partns.filter (fun ps => if !doPrune then true else keep.contains ps.id)).flatMap
        (fun ps => ps.slices.map (·.snap)) := by
    unfold IndexSnapshot.snapIds
    rw [h1]
  rw [hids]
  exact h.2 s

theorem lookupEntry_setEntry {α : Type} (m : List (Nat × α)) (k : Nat) (v : α) :
    lookupEntry (setEntry m k v) k = some v := by
  induction m with
  | nil => simp [setEntry, lookupEntry]
  | cons p m ih =>
    unfold setEntry
    cases hp : (p.1 == k) with
    | true => simp [lookupEntry, List.find?_cons]
    | false =>
      simp only [Bool.false_eq_true, if_false]
      unfold lookupEntry at ih ⊢
      rw [List.find?_cons, hp]
      exact ih

/-- Installing a snapshot for an instance whose container exists replaces
that instance's published snapshot and touches no other part of the
snapshot map. -/
theorem updateSnapMapAndNotify_snapMap (st : StorageState) (is : IndexSnapshot)
    (now numVbuckets : Nat) (old : IndexSnapshot)
    (hc : lookupEntry st.snapMap is.instId = some old) :
    (updateSnapMapAndNotify st is now numVbuckets).1.snapMap =
      setEntry st.snapMap is.instId is := by
  unfold updateSnapMapAndNotify initSnapshotWaitersForInst
  rw [hc]
  dsimp only
  simp only [reduceIte]
  cases hw : lookupEntry st.waitersMap is.instId with
  | some wc => rfl
  | none =>
    cases hi : lookupEntry st.instMap is.instId with
    | none => rfl
    | some istate =>
      dsimp only
      by_cases hd : istate = IndexState.deleted
      · rw [if_pos hd]
      · rw [if_neg hd]

/-! ## Claim C6 -/

/-- C6 (counterexample): the claim reads the prune request's partition
list as the partitions to KEEP.  The code computes `kept` as the
complement: pruning instance 1 (whose snapshot holds partitions 1 and 2)
with the request list `[1]` publishes a snapshot holding exactly
partition 2 — not partition 1 as the claim predicts. -/
theorem C6_counterexample :
    (lookupEntry (handleIndexPruneSnapshot
        ⟨[(1, .active)],
          [(1, ⟨1, ⟨[5], [7], 0, .diskSnap⟩, [⟨1, [⟨0, 10⟩]⟩, ⟨2, [⟨0, 20⟩]⟩], false⟩)],
          [(1, [])], fun _ => 1⟩ 1 [1] 0 1).1.snapMap 1).map (fun x => x.partns.map (·.id)) =
      some [2] ∧
    (lookupEntry (handleIndexPruneSnapshot
        ⟨[(1, .active)],
          [(1, ⟨1, ⟨[5], [7], 0, .diskSnap⟩, [⟨1, [⟨0, 10⟩]⟩, ⟨2, [⟨0, 20⟩]⟩], false⟩)],
          [(1, [])], fun _ => 1⟩ 1 [1] 0 1).1.snapMap 1).map (fun x => x.partns.map (·.id)) ≠
      some [1] := by
  refine ⟨rfl, ?_⟩
  intro h
  rw [show (lookupEntry (handleIndexPruneSnapshot
        ⟨[(1, .active)],
          [(1, ⟨1, ⟨[5], [7], 0, .diskSnap⟩, [⟨1, [⟨0, 10⟩]⟩, ⟨2, [⟨0, 20⟩]⟩], false⟩)],
          [(1, [])], fun _ => 1⟩ 1 [1] 0 1).1.snapMap 1).map (fun x => x.partns.map (·.id)) =
      some [2] from rfl] at h
  cases h

/-- The kept-ids list computed by `handleIndexPruneSnapshot` contains a
current partition's id exactly when the prune request does not list it. -/
theorem kept_contains (partns : List PartitionSnapshot) (request : List Nat)
    (sp : PartitionSnapshot) (hsp : sp ∈ partns) :
    ((partns.filter fun q => !request.contains q.id).map (·.id)).contains sp.id =
      !request.contains sp.id := by
  cases hreq : request.contains sp.id with
  | false =>
    have hmem : sp.id ∈ (partns.filter fun q => !request.contains q.id).map (·.id) :=
      List.mem_map.mpr ⟨sp, List.mem_filter.mpr ⟨hsp, by rw [hreq]; rfl⟩, rfl⟩
    simpa using hmem
  | true =>
    cases hcont : ((partns.filter fun q => !request.contains q.id).map (·.id)).contains sp.id with
    | false => rfl
    | true =>
      exfalso
      have hmem : sp.id ∈ (partns.filter fun q => !request.contains q.id).map (·.id) := by
        simpa using hcont
      obtain ⟨q, hqf, hqid⟩ := List.mem_map.mp hmem
      have hq := (List.mem_filter.mp hqf).2
      rw [hqid, hreq] at hq
      cases hq

/-- C6 (amended): the prune request's partition list names the partitions
to REMOVE.  For an instance with a snapshot container, the new published
snapshot contains exactly the current partition snapshots whose id is NOT
in the request list (listing all current partitions is legal and yields a
snapshot with no partitions), and the deep clone that builds it
increments the refcount of every kept slice snapshot by exactly one. -/
theorem C6_amended (st : StorageState) (instId : Nat) (partitions : List Nat)
    (now numVbuckets : Nat) (snapshot : IndexSnapshot)
    (hc : lookupEntry st.snapMap instId = some snapshot)
    (hinst : snapshot.instId = instId) :
    (∃ pruned,
      lookupEntry (handleIndexPruneSnapshot st instId partitions now numVbuckets).1.snapMap
        instId = some pruned ∧
      pruned.partns = snapshot.partns.filter (fun sp => !partitions.contains sp.id) ∧
      ((∀ sp ∈ snapshot.partns, partitions.contains sp.id = true) → pruned.partns = [])) ∧
    (∀ s, (deepCloneIndexSnapshot st.refs snapshot true
        ((snapshot.partns.filter fun sp => !partitions.contains sp.id).map (·.id))).2 s =
      st.refs s + List.count s
        ((deepCloneIndexSnapshot st.refs snapshot true
          ((snapshot.partns.filter fun sp => !partitions.contains sp.id).map (·.id))).1.snapIds)) := by
  have hdc := deepClone_spec st.refs snapshot true
    ((snapshot.partns.filter fun sp => !partitions.contains sp.id).map (·.id))
  have hpartns : (deepCloneIndexSnapshot st.refs snapshot true
      ((snapshot.partns.filter fun sp => !partitions.contains sp.id).map (·.id))).1.partns =
      snapshot.partns.filter (fun sp => !partitions.contains sp.id) := by
    rw [hdc.1]
    apply List.filter_congr
    intro sp hsp
    show ((snapshot.partns.filter fun q => !partitions.contains q.id).map (·.id)).contains
        sp.id = _
    exact kept_contains snapshot.partns partitions sp hsp
  constructor
  · refine ⟨(deepCloneIndexSnapshot st.refs snapshot true
      ((snapshot.partns.filter fun sp => !partitions.contains sp.id).map (·.id))).1, ?_, hpartns, ?_⟩
    · have hrun : handleIndexPruneSnapshot st instId partitions now numVbuckets =
          updateSnapMapAndNotify
            { st with refs := (deepCloneIndexSnapshot st.refs snapshot true
                ((snapshot.partns.filter fun sp => !partitions.contains sp.id).map (·.id))).2 }
            (deepCloneIndexSnapshot st.refs snapshot true
              ((snapshot.partns.filter fun sp => !partitions.contains sp.id).map (·.id))).1
            now numVbuckets := by
        unfold handleIndexPruneSnapshot
        rw [hc]
      rw [hrun]
      have hinst2 : (deepCloneIndexSnapshot st.refs snapshot true
          ((snapshot.partns.filter fun sp => !partitions.contains sp.id).map (·.id))).1.instId =
          instId := hinst
      have hsm := updateSnapMapAndNotify_snapMap
        { st with refs := (deepCloneIndexSnapshot st.refs snapshot true
            ((snapshot.partns.filter fun sp => !partitions.contains sp.id).map (·.id))).2 }
        (deepCloneIndexSnapshot st.refs snapshot true
          ((snapshot.partns.filter fun sp => !partitions.contains sp.id).map (·.id))).1
        now numVbuckets snapshot (by rw [hinst2]; exact hc)
      rw [hsm, hinst2]
      exact lookupEntry_setEntry _ _ _
    · intro hall
      rw [hpartns]
      apply List.filter_eq_nil_iff.mpr
      intro sp hsp
      rw [hall sp hsp]
      simp
  · exact hdc.2

theorem C6_amended_witness :
    (lookupEntry (handleIndexPruneSnapshot
        ⟨[(3, .active)],
          [(3, ⟨3, ⟨[9], [4], 0, .diskSnap⟩, [⟨5, [⟨0, 50⟩]⟩, ⟨6, [⟨0, 60⟩]⟩], false⟩)],
          [(3, [])], fun _ => 1⟩ 3 [5] 0 1).1.snapMap 3).map (fun x => x.partns) =
      some [⟨6, [⟨0, 60⟩]⟩] := by
  obtain ⟨pruned, hl, hp, _⟩ := (C6_amended
    ⟨[(3, .active)],
      [(3, ⟨3, ⟨[9], [4], 0, .diskSnap⟩, [⟨5, [⟨0, 50⟩]⟩, ⟨6, [⟨0, 60⟩]⟩], false⟩)],
      [(3, [])], fun _ => 1⟩ 3 [5] 0 1
    ⟨3, ⟨[9], [4], 0, .diskSnap⟩, [⟨5, [⟨0, 50⟩]⟩, ⟨6, [⟨0, 60⟩]⟩], false⟩ rfl rfl).1
  rw [hl, Option.map_some']
  have : pruned.partns = [⟨6, [⟨0, 60⟩]⟩] := by rw [hp]; rfl
  rw [this]

/-! ## Claim C7 -/

/-- The single outcome of one waiter under a published snapshot: a
timeout error when expired, a (cloned) snapshot when consistent, nothing
(kept) otherwise. -/
def deliveryFor (is : IndexSnapshot) (now : Nat) (w : Waiter) : Option Delivery :=
  if waiterExpiredNow now w then some (.scanTimedOut w.wid)
  else if isSnapshotConsistent is w.cons w.ts then some (.snapshot w.wid is)
  else none

theorem walkWaiters_fold (is : IndexSnapshot) (now : Nat) (waiters : List Waiter) :
    ∀ acc : List Delivery × List Waiter × Refs,
      (waiters.foldl (walkWaitersStep is now) acc).1 =
        acc.1 ++ waiters.filterMap (deliveryFor is now) ∧
      (waiters.foldl (walkWaitersStep is now) acc).2.1 =
        acc.2.1 ++ waiters.filter
          (fun w => !waiterExpiredNow now w && !isSnapshotConsistent is w.cons w.ts) ∧
      ∀ s, (waiters.foldl (walkWaitersStep is now) acc).2.2 s =
        acc.2.2 s + (waiters.countP fun w => !waiterExpiredNow now w &&
          isSnapshotConsistent is w.cons w.ts) * List.count s is.snapIds := by
  induction waiters with
  | nil => intro acc; exact ⟨by simp, by simp, fun s => by simp⟩
  | cons w ws ih =>
    intro acc
    rw [List.foldl_cons]
    cases hexp : waiterExpiredNow now w with
    | true =>
      have hstep : walkWaitersStep is now acc w =
          (acc.1 ++ [.scanTimedOut w.wid], acc.2.1, acc.2.2) := by
        unfold walkWaitersStep
        rw [hexp]
        rfl
      obtain ⟨ih1, ih2, ih3⟩ := ih (acc.1 ++ [.scanTimedOut w.wid], acc.2.1, acc.2.2)
      rw [hstep]
      refine ⟨?_, ?_, ?_⟩
      · rw [ih1]
        simp [List.filterMap_cons, deliveryFor, hexp]
      · rw [ih2]
        simp [List.filter_cons, hexp]
      · intro s
        rw [ih3 s]
        simp [List.countP_cons, hexp]
    | false =>
      cases hcons : isSnapshotConsistent is w.cons w.ts with
      | true =>
        have hstep : walkWaitersStep is now acc w =
            (acc.1 ++ [.snapshot w.wid is], acc.2.1, (CloneIndexSnapshot acc.2.2 is).2) := by
          unfold walkWaitersStep
          rw [hexp, hcons]
          rfl
        obtain ⟨ih1, ih2, ih3⟩ :=
          ih (acc.1 ++ [.snapshot w.wid is], acc.2.1, (CloneIndexSnapshot acc.2.2 is).2)
        rw [hstep]
        refine ⟨?_, ?_, ?_⟩
        · rw [ih1]
          simp [List.filterMap_cons, deliveryFor, hexp, hcons]
        · rw [ih2]
          simp [List.filter_cons, hexp, hcons]
        · intro s
          rw [ih3 s]
          have hcl : (CloneIndexSnapshot acc.2.2 is).2 s =
              acc.2.2 s + List.count s is.snapIds := foldl_openSnap_count _ _ _
          rw [hcl]
          simp only [List.countP_cons, hexp, hcons, Bool.not_false, Bool.and_self,
            if_true, and_true]
          rw [Nat.add_mul, Nat.one_mul]
          omega
      | false =>
        have hstep : walkWaitersStep is now acc w =
            (acc.1, acc.2.1 ++ [w], acc.2.2) := by
          unfold walkWaitersStep
          rw [hexp, hcons]
          rfl
        obtain ⟨ih1, ih2, ih3⟩ := ih (acc.1, acc.2.1 ++ [w], acc.2.2)
        rw [hstep]
        refine ⟨?_, ?_, ?_⟩
        · rw [ih1]
          simp [List.filterMap_cons, deliveryFor, hexp, hcons]
        · rw [ih2]
          simp [List.filter_cons, hexp, hcons]
        · intro s
          rw [ih3 s]
          simp [List.countP_cons, hexp, hcons]

theorem filterMap_filter_length (is : IndexSnapshot) (now : Nat) (waiters : List Waiter) :
    (waiters.filterMap (deliveryFor is now)).length +
      (waiters.filter
        (fun w => !waiterExpiredNow now w && !isSnapshotConsistent is w.cons w.ts)).length =
      waiters.length := by
  induction waiters with
  | nil => simp
  | cons w ws ih =>
    rw [List.filterMap_cons, List.filter_cons, List.length_cons]
    cases hexp : waiterExpiredNow now w with
    | true =>
      simp only [deliveryFor, hexp, if_true, Bool.not_true, Bool.false_and,
        Bool.false_eq_true, if_false, List.length_cons]
      omega
    | false =>
      cases hcons : isSnapshotConsistent is w.cons w.ts with
      | true =>
        simp only [deliveryFor, hexp, hcons, Bool.false_eq_true, if_false, if_true,
          Bool.not_false, Bool.not_true, Bool.and_false, List.length_cons]
        omega
      | false =>
        simp only [deliveryFor, hexp, hcons, Bool.false_eq_true, if_false,
          Bool.not_false, Bool.and_self, if_true, List.length_cons]
        omega

/-- C7: when a new snapshot is published, the waiter list is walked once
and each waiter meets exactly one of three fates — an expired waiter
receives the `ScanTimedOut` error and is removed; otherwise a waiter
whose consistency predicate the snapshot satisfies receives a
(refcount-bumped) clone of the snapshot and is removed; otherwise it is
kept.  The deliveries are the per-waiter outcomes in walk order, the
surviving list keeps exactly the third kind, every waiter is accounted
for exactly once, and the refcounts record one clone per satisfied
waiter. -/
theorem C7_waiter_walk (is : IndexSnapshot) (now : Nat) (waiters : List Waiter) (r : Refs) :
    (walkWaiters is now waiters r).1 = waiters.filterMap (deliveryFor is now) ∧
    (walkWaiters is now waiters r).2.1 =
      waiters.filter
        (fun w => !waiterExpiredNow now w && !isSnapshotConsistent is w.cons w.ts) ∧
    (walkWaiters is now waiters r).1.length + (walkWaiters is now waiters r).2.1.length =
      waiters.length ∧
    (∀ w ∈ waiters,
      (waiterExpiredNow now w = true → deliveryFor is now w = some (.scanTimedOut w.wid)) ∧
      (waiterExpiredNow now w = false → isSnapshotConsistent is w.cons w.ts = true →
        deliveryFor is now w = some (.snapshot w.wid is)) ∧
      (waiterExpiredNow now w = false → isSnapshotConsistent is w.cons w.ts = false →
        deliveryFor is now w = none ∧ w ∈ (walkWaiters is now waiters r).2.1)) ∧
    (∀ s, (walkWaiters is now waiters r).2.2 s =
      r s + (waiters.countP fun w => !waiterExpiredNow now w &&
        isSnapshotConsistent is w.cons w.ts) * List.count s is.snapIds) := by
  obtain ⟨h1, h2, h3⟩ := walkWaiters_fold is now waiters ([], [], r)
  have h1' : (walkWaiters is now waiters r).1 = waiters.filterMap (deliveryFor is now) := by
    rw [walkWaiters, h1]; simp
  have h2' : (walkWaiters is now waiters r).2.1 = waiters.filter
      (fun w => !waiterExpiredNow now w && !isSnapshotConsistent is w.cons w.ts) := by
    rw [walkWaiters, h2]; simp
  refine ⟨h1', h2', ?_, ?_, ?_⟩
  · rw [h1', h2']
    exact filterMap_filter_length is now waiters
  · intro w hw
    refine ⟨?_, ?_, ?_⟩
    · intro hexp
      simp [deliveryFor, hexp]
    · intro hexp hcons
      simp [deliveryFor, hexp, hcons]
    · intro hexp hcons
      refine ⟨by simp [deliveryFor, hexp, hcons], ?_⟩
      rw [h2']
      exact List.mem_filter.mpr ⟨hw, by rw [hexp, hcons]; rfl⟩
  · intro s
    rw [walkWaiters, h3 s]

theorem C7_witness :
    (walkWaiters ⟨1, ⟨[5], [7], 0, .diskSnap⟩, [⟨0, [⟨0, 10⟩]⟩], false⟩ 100
      [⟨1, ⟨[3], [7], 0, .diskSnap⟩, .queryConsistency, some 50⟩,
       ⟨2, ⟨[3], [7], 0, .diskSnap⟩, .queryConsistency, some 200⟩,
       ⟨3, ⟨[9], [7], 0, .diskSnap⟩, .queryConsistency, none⟩] (fun _ => 1)).1 =
      [.scanTimedOut 1,
       .snapshot 2 ⟨1, ⟨[5], [7], 0, .diskSnap⟩, [⟨0, [⟨0, 10⟩]⟩], false⟩] ∧
    (walkWaiters ⟨1, ⟨[5], [7], 0, .diskSnap⟩, [⟨0, [⟨0, 10⟩]⟩], false⟩ 100
      [⟨1, ⟨[3], [7], 0, .diskSnap⟩, .queryConsistency, some 50⟩,
       ⟨2, ⟨[3], [7], 0, .diskSnap⟩, .queryConsistency, some 200⟩,
       ⟨3, ⟨[9], [7], 0, .diskSnap⟩, .queryConsistency, none⟩] (fun _ => 1)).2.1 =
      [⟨3, ⟨[9], [7], 0, .diskSnap⟩, .queryConsistency, none⟩] := by
  have h := C7_waiter_walk ⟨1, ⟨[5], [7], 0, .diskSnap⟩, [⟨0, [⟨0, 10⟩]⟩], false⟩ 100
    [⟨1, ⟨[3], [7], 0, .diskSnap⟩, .queryConsistency, some 50⟩,
     ⟨2, ⟨[3], [7], 0, .diskSnap⟩, .queryConsistency, some 200⟩,
     ⟨3, ⟨[9], [7], 0, .diskSnap⟩, .queryConsistency, none⟩] (fun _ => 1)
  exact ⟨h.1.trans (by rfl), h.2.1.trans (by rfl)⟩

/-! ## Scan planner (`scan_request.go`)

Index keys are byte strings (modelled as `List Nat`).  `MinIndexKey` and
`MaxIndexKey` are the sentinels of `index_entry`; `nilKey` stands for
Go's nil `IndexKey` interface value (the zero value of `Scan`/`Filter`
fields, never compared on the modelled paths).  The collation codec
(`collatejson.JoinArray`) and the reverse-collation transform
(`jsonEncoder.ReverseCollate`) are external to `src/` and appear as
parameters `join` and `revCollate`. -/

inductive Inclusion
  | neither
  | low
  | high
  | both
  deriving DecidableEq, Repr

inductive IndexKey
  | nilKey
  | minKey
  | maxKey
  | secKey (bytes : List Nat)
  | primKey (bytes : List Nat)
  deriving DecidableEq, Repr

def IndexKey.bytes : IndexKey → List Nat
  | .nilKey => []
  | .minKey => []
  | .maxKey => []
  | .secKey b => b
  | .primKey b => b

/-- `bytes.Compare`: lexicographic byte-string comparison. -/
def bytesCompare : List Nat → List Nat → Ordering
  | [], [] => .eq
  | [], _ :: _ => .lt
  | _ :: _, [] => .gt
  | a :: as, b :: bs => if a < b then .lt else if b < a then .gt else bytesCompare as bs

/-- Modelled from the spec: `secondaryKey.ComparePrefixIndexKey` — the
"prefix comparator on composite keys" (spec §4.5, `index_entry` is not
under `src/`): compare only the common-length prefix. -/
def comparePrefixBytes (a b : List Nat) : Ordering :=
  bytesCompare (a.take (min a.length b.length)) (b.take (min a.length b.length))

/-- Modelled from the spec: the `ComparePrefixIndexKey` method —
`Min` below and `Max` above everything; secondary keys use the prefix
comparator; primary keys are not composite, so their prefix comparison is
the full byte comparison.  (`nilKey` would be a nil-pointer panic in Go;
it is never reached on the modelled paths.) -/
def IndexKey.comparePrefixIndexKey : IndexKey → IndexKey → Ordering
  | .nilKey, _ => .eq
  | _, .nilKey => .eq
  | .minKey, .minKey => .eq
  | .minKey, _ => .lt
  | _, .minKey => .gt
  | .maxKey, .maxKey => .eq
  | .maxKey, _ => .gt
  | _, .maxKey => .lt
  | .secKey a, k => comparePrefixBytes a k.bytes
  | .primKey a, k => bytesCompare a k.bytes

/-- Modelled from the spec: the `CompareIndexKey` method — full byte
comparison with the sentinels. -/
def IndexKey.compareIndexKey : IndexKey → IndexKey → Ordering
  | .nilKey, _ => .eq
  | _, .nilKey => .eq
  | .minKey, .minKey => .eq
  | .minKey, _ => .lt
  | _, .minKey => .gt
  | .maxKey, .maxKey => .eq
  | .maxKey, _ => .gt
  | _, .maxKey => .lt
  | a, b => bytesCompare a.bytes b.bytes

/-- `IndexKeyLessThan` (scan_request.go): sentinel checks, then
`bytes.Compare(a.Bytes(), b.Bytes()) < 0`. -/
def IndexKeyLessThan (a b : IndexKey) : Bool :=
  if a = .minKey then true
  else if a = .maxKey then false
  else if b = .minKey then false
  else if b = .maxKey then true
  else bytesCompare a.bytes b.bytes == .lt

inductive PointType
  | low
  | high
  deriving DecidableEq, Repr

/-- `IndexPoint` (scan_request.go): an endpoint of a filter, tagged with
the filter it belongs to and whether it is the low or the high end. -/
structure IndexPoint where
  Value : IndexKey
  FilterId : Nat
  ptype : PointType
  deriving DecidableEq, Repr

/-- `minlen` (scan_request.go). -/
def minlen (x y : IndexPoint) : IndexPoint :=
  if x.Value.bytes.length < y.Value.bytes.length then x else y

/-- `IndexPointLessThan` (scan_request.go): sentinels first; then the
prefix comparison on the values; on equal values, equal byte lengths
order a low endpoint before a high one, and different byte lengths defer
to the type of the shorter ("inclusive") point — `inclusiveKey == x` /
`inclusiveKey == y` are Go struct equalities. -/
def IndexPointLessThan (x y : IndexPoint) : Bool :=
  if x.Value = .minKey then true
  else if x.Value = .maxKey then false
  else if y.Value = .minKey then false
  else if y.Value = .maxKey then true
  else if x.Value.comparePrefixIndexKey y.Value == .lt then true
  else if x.Value.comparePrefixIndexKey y.Value == .eq then
    if x.Value.bytes.length = y.Value.bytes.length then
      decide (x.ptype = .low ∧ y.ptype = .high)
    else
      match (minlen x y).ptype with
      | .low => minlen x y == x
      | .high => minlen x y == y
  else false

inductive ScanFilterType
  | unspecified
  | allReq
  | lookupReq
  | rangeReq
  | filterRangeReq
  deriving DecidableEq, Repr

/-- `CompositeElementFilter` (scan_request.go): a range for a single
field of the composite key. -/
structure CompositeElementFilter where
  Low : IndexKey
  High : IndexKey
  Inclusion : Inclusion
  deriving DecidableEq, Repr

/-- `Filter` (scan_request.go). -/
structure Filter where
  CompositeFilters : List CompositeElementFilter := []
  Low : IndexKey := .nilKey
  High : IndexKey := .nilKey
  Inclusion : Inclusion := .neither
  ScanType : ScanFilterType := .unspecified
  deriving DecidableEq, Repr

/-- `Scan` (scan_request.go); the defaults are Go's zero values. -/
structure Scan where
  Low : IndexKey := .nilKey
  High : IndexKey := .nilKey
  Incl : Inclusion := .neither
  ScanType : ScanFilterType := .unspecified
  Filters : List Filter := []
  Equals : Option IndexKey := none
  deriving DecidableEq, Repr

def filterZero : Filter := {}

def cefZero : CompositeElementFilter := ⟨.nilKey, .nilKey, .neither⟩

/-- `FilterLessThan` (scan_request.go): order filters by their low key
only. -/
def FilterLessThan (x y : Filter) : Bool :=
  if x.Low = .minKey then true
  else if x.Low = .maxKey then false
  else if y.Low = .minKey then false
  else if y.Low = .maxKey then true
  else x.Low.comparePrefixIndexKey y.Low == .lt

/-- `getScanAll` (scan_request.go). -/
def getScanAll : Scan := { ScanType := .allReq }

/-- `getEmptyScan` (scan_request.go, primary path): `newKey([]byte(""))`
gives the empty primary key; low = high = empty key, inclusion
`Neither`. -/
def getEmptyScan : Scan :=
  { Low := .primKey [], High := .primKey [], Incl := .neither, ScanType := .rangeReq }

/-- `flipInclusion` (scan_request.go). -/
def flipInclusion (incl : Inclusion) (desc : List Bool) : Inclusion :=
  if desc.length != 0 && desc.getD 0 false then
    match incl with
    | .low => .high
    | .high => .low
    | x => x
  else incl

/-! ### Wire request shape and key construction -/

/-- One wire-level composite element filter (`protobuf.Scan.Filters`). -/
structure ProtoFilter where
  low : Option (List Nat)
  high : Option (List Nat)
  inclusion : Inclusion
  deriving DecidableEq, Repr

/-- One wire-level `Scan`: either equals keys or an ordered filter
list. -/
structure ProtoScan where
  equals : List (List Nat)
  filters : List ProtoFilter
  deriving DecidableEq, Repr

/-- `ScanRequest.isNil`: nil bytes, or the literal `"[]"` (bytes 91, 93)
on a secondary index. -/
def isNilKey (isPrimary : Bool) (k : Option (List Nat)) : Bool :=
  match k with
  | none => true
  | some b => !isPrimary && b == [91, 93]

/-- `ScanRequest.newKey`: `NewPrimaryKey` / `NewSecondaryKey` (modelled
from the spec: the key constructors of `index_entry` are not under
`src/`; buffers and key-size limits are not modelled). -/
def newKey (isPrimary : Bool) (k : List Nat) : IndexKey :=
  if isPrimary then .primKey k else .secKey k

/-- `ScanRequest.newLowKey`: nil means unbounded below. -/
def newLowKey (isPrimary : Bool) (k : Option (List Nat)) : IndexKey :=
  if isNilKey isPrimary k then .minKey else newKey isPrimary (k.getD [])

/-- `ScanRequest.newHighKey`: nil means unbounded above. -/
def newHighKey (isPrimary : Bool) (k : Option (List Nat)) : IndexKey :=
  if isNilKey isPrimary k then .maxKey else newKey isPrimary (k.getD [])

/-- `ScanRequest.areFiltersNil`. -/
def areFiltersNil (isPrimary : Bool) (ps : ProtoScan) : Bool :=
  ps.filters.all fun fl => isNilKey isPrimary fl.low && isNilKey isPrimary fl.high

/-! ### Composite filter composition -/

/-- `fillFilterLowHigh` (scan_request.go): join the per-element bounds
with the array encoder, truncating at the first unbounded element; with
descending keys, swap low/high per descending position, truncate at the
first sentinel, join and reverse-collate.  Returns (low, high). -/
def fillFilterLowHigh (join : List (List Nat) → List Nat)
    (revCollate : List Nat → List Bool → List Nat) (desc : List Bool)
    (compFilters : List CompositeElementFilter) : IndexKey × IndexKey :=
  if !(desc.any id) then
    match compFilters with
    | [] => (.minKey, .maxKey)  -- unreachable: callers pass at least one filter
    | cf0 :: _ =>
      let low :=
        if cf0.Low = .minKey then IndexKey.minKey
        else .secKey (join (((compFilters.takeWhile fun f => !(f.Low = .minKey)).map
          fun f => f.Low.bytes)))
      let high :=
        if cf0.High = .maxKey then IndexKey.maxKey
        else .secKey (join (((compFilters.takeWhile fun f => !(f.High = .maxKey)).map
          fun f => f.High.bytes)))
      (low, high)
  else
    let swapped := (List.range compFilters.length).map fun i =>
      let f := compFilters.getD i cefZero
      if desc.getD i false then (f.High, f.Low) else (f.Low, f.High)
    let lows2 := (swapped.map (·.1)).takeWhile fun k => !(k = .minKey || k = .maxKey)
    let highs2 := (swapped.map (·.2)).takeWhile fun k => !(k = .minKey || k = .maxKey)
    let lowKey :=
      if lows2.length > 0 then
        IndexKey.secKey (revCollate (join (lows2.map (·.bytes))) (desc.take lows2.length))
      else IndexKey.minKey
    let highKey :=
      if highs2.length > 0 then
        IndexKey.secKey (revCollate (join (highs2.map (·.bytes))) (desc.take highs2.length))
      else IndexKey.maxKey
    (lowKey, highKey)

/-- `fillFilterEquals` (scan_request.go): join the equality keys, with
reverse collation when the index has descending keys; one `Both`
composite element filter per key; the filter is a `Lookup`. -/
def fillFilterEquals (join : List (List Nat) → List Nat)
    (revCollate : List Nat → List Bool → List Nat) (desc : List Bool)
    (equals : List (List Nat)) : Filter :=
  let equalsBytes := equals.map fun k => (newKey false k).bytes
  let equalsKey := join equalsBytes
  let eqReverse :=
    if !(desc.any id) then equalsKey else revCollate equalsKey (desc.take equals.length)
  { CompositeFilters := equals.map (fun k =>
      { Low := .secKey k, High := .secKey k, Inclusion := .both }),
    Low := .secKey eqReverse,
    High := .secKey eqReverse,
    Inclusion := .both,
    ScanType := .lookupReq }

/-! ### `composeScans` (secondary index) -/

/-- The sweep state of `composeScans`: emitted scans, the active filter
set (`filtersMap`), the filters of the current span (`filtersList`) and
the span's low key. -/
structure ComposeState where
  scans : List Scan
  filtersMap : List Nat
  filtersList : List Nat
  low : IndexKey
  deriving DecidableEq, Repr

/-- One point of the `composeScans` sweep (scan_request.go): at the start
of a span record its low; a point closing its filter may end the span —
emitting a new `FilterRange` scan or, when the previous scan's high
prefix-equals this span's low, merging into it. -/
def composeScansStep (filters : List Filter) (st : ComposeState) (p : IndexPoint) :
    ComposeState :=
  let st := if st.filtersMap.length == 0 then { st with low := p.Value } else st
  if st.filtersMap.contains p.FilterId then
    let fm := st.filtersMap.filter fun fid => !(fid == p.FilterId)
    if fm.length == 0 then
      let appended :=
        match st.scans.getLast? with
        | some lastScan =>
          if lastScan.High.comparePrefixIndexKey st.low == .eq then
            st.scans.dropLast ++
              [{ lastScan with
                  Filters := lastScan.Filters ++
                    st.filtersList.map (fun fl => filters.getD fl filterZero),
                  High := p.Value }]
          else
            st.scans ++
              [{ Low := st.low,
                 High := p.Value,
                 Incl := .both,
                 ScanType := .filterRangeReq,
                 Filters := st.filtersList.map (fun fl => filters.getD fl filterZero) }]
        | none =>
          st.scans ++
            [{ Low := st.low,
               High := p.Value,
               Incl := .both,
               ScanType := .filterRangeReq,
               Filters := st.filtersList.map (fun fl => filters.getD fl filterZero) }]
      { scans := appended, filtersMap := fm, filtersList := [], low := st.low }
    else
      { st with filtersMap := fm }
  else
    { st with
        filtersMap := st.filtersMap ++ [p.FilterId],
        filtersList := st.filtersList ++ [p.FilterId] }

/-- The post-pass of `composeScans` (scan_request.go): a single-lookup
span becomes a `Lookup`; a single-filter single-CEF `FilterRange`
collapses to a `Range`, flipping the inclusion when the leading key is
descending. -/
def composeScansPost (desc : List Bool) (scans : List Scan) : List Scan :=
  scans.map fun sc0 =>
    let sc :=
      if sc0.Filters.length == 1 && (sc0.Filters.getD 0 filterZero).ScanType == .lookupReq then
        { sc0 with Equals := some sc0.Low, ScanType := .lookupReq }
      else sc0
    if sc.ScanType == .filterRangeReq && sc.Filters.length == 1 &&
        ((sc.Filters.getD 0 filterZero).CompositeFilters.length == 1) then
      { sc with
          Incl := flipInclusion
            ((sc.Filters.getD 0 filterZero).CompositeFilters.getD 0 cefZero).Inclusion desc,
          ScanType := .rangeReq }
    else sc

/-- `composeScans` (scan_request.go): sweep the sorted points, then the
post-pass. -/
def composeScans (desc : List Bool) (points : List IndexPoint) (filters : List Filter) :
    List Scan :=
  composeScansPost desc
    (points.foldl (composeScansStep filters) ⟨[], [], [], .nilKey⟩).scans

/-! ### `MergeFiltersForPrimary` (primary index) -/

/-- `lowInclude` (scan_request.go). -/
def lowInclude (incls : List Inclusion) : Nat :=
  if incls.any (fun i => i == .low || i == .both) then 1 else 0

/-- `highInclude` (scan_request.go). -/
def highInclude (incls : List Inclusion) : Nat :=
  if incls.any (fun i => i == .high || i == .both) then 1 else 0

/-- `inclusionMatrix` (scan_request.go). -/
def inclusionMatrix : List (List Inclusion) :=
  [[.neither, .high], [.low, .both]]

/-- `MergeFiltersForPrimary` (scan_request.go): append a new `Range` scan
when the new filter starts after the last scan's high (or touches it
without inclusion); otherwise merge it into the last scan, taking
inclusion unions at matching endpoints. -/
def MergeFiltersForPrimary (scans : List Scan) (f2 : Filter) : List Scan :=
  match scans.getLast? with
  | none =>
    scans ++ [{ Low := f2.Low, High := f2.High, Incl := f2.Inclusion, ScanType := .rangeReq }]
  | some f1 =>
    if f2.Low.comparePrefixIndexKey f1.High == .gt then
      scans ++
        [{ Low := f2.Low, High := f2.High, Incl := f2.Inclusion, ScanType := .rangeReq }]
    else if f1.High.comparePrefixIndexKey f2.Low == .eq &&
        !(f1.Incl == .high || f1.Incl == .both ||
          f2.Inclusion == .low || f2.Inclusion == .both) then
      scans ++
        [{ Low := f2.Low, High := f2.High, Incl := f2.Inclusion, ScanType := .rangeReq }]
    else
      let lowPair :=
        if f1.Low.comparePrefixIndexKey f2.Low == .eq then
          (f1.Low, lowInclude [f1.Incl, f2.Inclusion])
        else if f1.Low.comparePrefixIndexKey f2.Low == .lt then
          (f1.Low, lowInclude [f1.Incl])
        else (f2.Low, lowInclude [f2.Inclusion])
      let highPair :=
        if f1.High.comparePrefixIndexKey f2.High == .eq then
          (f1.High, highInclude [f1.Incl, f2.Inclusion])
        else if f1.High.comparePrefixIndexKey f2.High == .gt then
          (f1.High, highInclude [f1.Incl])
        else (f2.High, highInclude [f2.Inclusion])
      scans.dropLast ++
        [{ f1 with
            Low := lowPair.1,
            High := highPair.1,
            Incl := (inclusionMatrix.getD lowPair.2 []).getD highPair.2 .neither }]

/-! ### `fillScans` -/

/-- The composite-element-filter loop of the secondary branch of
`fillScans`: convert each wire filter's bounds, breaking off (`none` =
skip the whole `Scan`) at the first filter whose high key is strictly
below its low key. -/
def buildCompFilters : List ProtoFilter → Option (List CompositeElementFilter)
  | [] => some []
  | fl :: rest =>
    let l := newLowKey false fl.low
    let h := newHighKey false fl.high
    if IndexKeyLessThan h l then none
    else
      match buildCompFilters rest with
      | none => none
      | some cfs => some (⟨l, h, fl.inclusion⟩ :: cfs)

/-- The result of processing one wire `Scan` on the secondary path. -/
inductive ScanStepResult
  | scanAll
  | next (filters : List Filter) (points : List IndexPoint)
  deriving DecidableEq, Repr

/-- One iteration of the secondary-path loop of `fillScans`
(scan_request.go): an equals scan contributes a lookup filter and its two
points; no filters or all-nil filters collapse the whole request to
`ScanAll`; a scan containing an inverted composite element filter is
skipped; otherwise the composed filter and its two endpoints are
added. -/
def processProtoScan (join : List (List Nat) → List Nat)
    (revCollate : List Nat → List Bool → List Nat) (desc : List Bool)
    (fs : List Filter) (pts : List IndexPoint) (ps : ProtoScan) : ScanStepResult :=
  if ps.equals.length != 0 then
    let filter := fillFilterEquals join revCollate desc ps.equals
    .next (fs ++ [filter])
      (pts ++ [⟨filter.Low, fs.length, .low⟩, ⟨filter.High, fs.length, .high⟩])
  else if ps.filters.length == 0 then .scanAll
  else if areFiltersNil false ps then .scanAll
  else
    match buildCompFilters ps.filters with
    | none => .next fs pts
    | some cfs =>
      let lh := fillFilterLowHigh join revCollate desc cfs
      let filter : Filter :=
        { CompositeFilters := cfs, Low := lh.1, High := lh.2, Inclusion := .both }
      .next (fs ++ [filter])
        (pts ++ [⟨filter.Low, fs.length, .low⟩, ⟨filter.High, fs.length, .high⟩])

def fillScansSecondaryLoop (join : List (List Nat) → List Nat)
    (revCollate : List Nat → List Bool → List Nat) (desc : List Bool) :
    List Filter → List IndexPoint → List ProtoScan →
    Option (List Filter × List IndexPoint)
  | fs, pts, [] => some (fs, pts)
  | fs, pts, ps :: rest =>
    match processProtoScan join revCollate desc fs pts ps with
    | .scanAll => none
    | .next fs2 pts2 => fillScansSecondaryLoop join revCollate desc fs2 pts2 rest

/-- Modelled from the spec: `sort.Sort` orders a slice by its `Less`
method (the Go standard sort is not under `src/`); insertion sort
realizes that contract. -/
def insertSorted (le : α → α → Bool) (x : α) : List α → List α
  | [] => [x]
  | y :: ys => if le x y then x :: y :: ys else y :: insertSorted le x ys

def sortBy (le : α → α → Bool) : List α → List α
  | [] => []
  | x :: xs => insertSorted le x (sortBy le xs)

/-- `sort.Sort(IndexPoints(points))`: sort by `IndexPointLessThan`. -/
def sortIndexPoints (pts : List IndexPoint) : List IndexPoint :=
  sortBy (fun x y => !IndexPointLessThan y x) pts

/-- `sort.Sort(Filters(filters))`: sort by `FilterLessThan`. -/
def sortFilters (fs : List Filter) : List Filter :=
  sortBy (fun x y => !FilterLessThan y x) fs

/-- The secondary branch of `fillScans`: `ScanAll` if some wire scan
demanded it, else compose the sorted points. -/
def fillScansSecondary (join : List (List Nat) → List Nat)
    (revCollate : List Nat → List Bool → List Nat) (desc : List Bool)
    (protoScans : List ProtoScan) : List Scan :=
  match fillScansSecondaryLoop join revCollate desc [] [] protoScans with
  | none => [getScanAll]
  | some z => composeScans desc (sortIndexPoints z.2) z.1

/-- One iteration of the primary-path loop of `fillScans`
(scan_request.go): equals scans contribute a filter (and two unused
points); no filters or all-nil filters give `ScanAll` (`none`); a first
filter with high < low, or a degenerate equal-bounds filter without
`Both` inclusion, appends the empty scan; otherwise the filter is kept
for the sort-and-merge pass. -/
def processPrimaryScan (fs : List Filter) (pts : List IndexPoint) (scans : List Scan)
    (ps : ProtoScan) : Option (List Filter × List IndexPoint × List Scan) :=
  if ps.equals.length != 0 then
    let key := newKey true (ps.equals.getD 0 [])
    some (fs ++ [{ Low := key, High := key, Inclusion := .both }],
      pts ++ [⟨key, fs.length, .low⟩, ⟨key, fs.length, .high⟩], scans)
  else if ps.filters.length == 0 then none
  else if areFiltersNil true ps then none
  else
    let fl := ps.filters.getD 0 ⟨none, none, .neither⟩
    let l := newLowKey true fl.low
    let h := newHighKey true fl.high
    if IndexKeyLessThan h l then
      some (fs, pts, scans ++ [getEmptyScan])
    else if l.compareIndexKey h == .eq && fl.inclusion != .both then
      some (fs, pts, scans ++ [getEmptyScan])
    else
      some (fs ++
        [{ CompositeFilters := [⟨l, h, fl.inclusion⟩], Low := l, High := h,
           Inclusion := fl.inclusion }], pts, scans)

def fillScansPrimaryLoop :
    List Filter → List IndexPoint → List Scan → List ProtoScan →
    Option (List Filter × List IndexPoint × List Scan)
  | fs, pts, scans, [] => some (fs, pts, scans)
  | fs, pts, scans, ps :: rest =>
    match processPrimaryScan fs pts scans ps with
    | none => none
    | some z => fillScansPrimaryLoop z.1 z.2.1 z.2.2 rest

/-- The primary branch of `fillScans`: collect filters and empty scans,
then sort the filters by low key and merge them into the scan list. -/
def fillScansPrimary (protoScans : List ProtoScan) : List Scan :=
  match fillScansPrimaryLoop [] [] [] protoScans with
  | none => [getScanAll]
  | some z => (sortFilters z.1).foldl MergeFiltersForPrimary z.2.2

/-- `fillScans` (scan_request.go).  `keys`, `rLow`, `rHigh`, `rIncl` feed
the upgrade path taken when the request carries no wire scans. -/
def fillScans (isPrimary : Bool) (join : List (List Nat) → List Nat)
    (revCollate : List Nat → List Bool → List Nat) (desc : List Bool)
    (keys : List IndexKey) (rLow rHigh : IndexKey) (rIncl : Inclusion)
    (protoScans : List ProtoScan) : List Scan :=
  if protoScans.length == 0 then
    match keys.head? with
    | some k => [{ Equals := some k, ScanType := .lookupReq }]
    | none => [{ Low := rLow, High := rHigh, Incl := rIncl, ScanType := .rangeReq }]
  else if isPrimary then fillScansPrimary protoScans
  else fillScansSecondary join revCollate desc protoScans

/-- A wire filter is inverted when its high key converts strictly below
its low key — the `IndexKeyLessThan(h, l)` test of `fillScans`. -/
def invertedFilter (isPrimary : Bool) (fl : ProtoFilter) : Bool :=
  IndexKeyLessThan (newHighKey isPrimary fl.high) (newLowKey isPrimary fl.low)

lemma inverted_not_nilpair (isP : Bool) (fl : ProtoFilter)
    (h : invertedFilter isP fl = true) :
    (isNilKey isP fl.low && isNilKey isP fl.high) = false := by
  cases h1 : isNilKey isP fl.low with
  | false => simp [h1]
  | true =>
    cases h2 : isNilKey isP fl.high with
    | false => simp [h1, h2]
    | true =>
      exfalso
      simp only [invertedFilter, newLowKey, newHighKey, h1, h2, reduceIte] at h
      exact absurd h (by decide)

lemma areFiltersNil_false (isP : Bool) (ps : ProtoScan) (fl : ProtoFilter)
    (hmem : fl ∈ ps.filters) (h : invertedFilter isP fl = true) :
    areFiltersNil isP ps = false := by
  simp only [areFiltersNil, List.all_eq_false]
  exact ⟨fl, hmem, by simp [inverted_not_nilpair isP fl h]⟩

lemma buildCompFilters_eq_none (fls : List ProtoFilter)
    (h : ∃ fl ∈ fls, invertedFilter false fl = true) :
    buildCompFilters fls = none := by
  induction fls with
  | nil => rcases h with ⟨fl, hmem, _⟩; cases hmem
  | cons f rest ih =>
    rcases h with ⟨fl, hmem, hinv⟩
    simp only [buildCompFilters]
    by_cases hf : IndexKeyLessThan (newHighKey false f.high) (newLowKey false f.low) = true
    · rw [if_pos hf]
    · rcases List.mem_cons.mp hmem with heq | hmem2
      · exact absurd (heq ▸ hinv) hf
      · rw [if_neg hf, ih ⟨fl, hmem2, hinv⟩]

lemma processProtoScan_skip (join : List (List Nat) → List Nat)
    (revCollate : List Nat → List Bool → List Nat) (desc : List Bool)
    (fs : List Filter) (pts : List IndexPoint) (ps : ProtoScan)
    (heq : ps.equals = []) (h : ∃ fl ∈ ps.filters, invertedFilter false fl = true) :
    processProtoScan join revCollate desc fs pts ps = .next fs pts := by
  rcases h with ⟨fl, hmem, hinv⟩
  have hlen : (ps.filters.length == 0) = false := by
    cases hfc : ps.filters with
    | nil => rw [hfc] at hmem; cases hmem
    | cons a l => rfl
  have hnil : areFiltersNil false ps = false :=
    areFiltersNil_false false ps fl hmem hinv
  have hbuild : buildCompFilters ps.filters = none :=
    buildCompFilters_eq_none ps.filters ⟨fl, hmem, hinv⟩
  simp only [processProtoScan, heq, hlen, hnil, hbuild, List.length_nil, bne_self_eq_false,
    Bool.false_eq_true, reduceIte]

lemma fillScansSecondaryLoop_drop (join : List (List Nat) → List Nat)
    (revCollate : List Nat → List Bool → List Nat) (desc : List Bool)
    (bad : ProtoScan) (post : List ProtoScan) (heq : bad.equals = [])
    (h : ∃ fl ∈ bad.filters, invertedFilter false fl = true) :
    ∀ (pre : List ProtoScan) (fs : List Filter) (pts : List IndexPoint),
      fillScansSecondaryLoop join revCollate desc fs pts (pre ++ bad :: post) =
        fillScansSecondaryLoop join revCollate desc fs pts (pre ++ post) := by
  intro pre
  induction pre with
  | nil =>
    intro fs pts
    simp only [List.nil_append, fillScansSecondaryLoop,
      processProtoScan_skip join revCollate desc fs pts bad heq h]
  | cons p pre ih =>
    intro fs pts
    simp only [List.cons_append, fillScansSecondaryLoop]
    cases hp : processProtoScan join revCollate desc fs pts p with
    | scanAll => rfl
    | next fs2 pts2 => exact ih fs2 pts2

lemma processPrimaryScan_empty (fs : List Filter) (pts : List IndexPoint)
    (scans : List Scan) (ps : ProtoScan) (fl : ProtoFilter) (rest : List ProtoFilter)
    (heq : ps.equals = []) (hfl : ps.filters = fl :: rest)
    (hinv : invertedFilter true fl = true) :
    processPrimaryScan fs pts scans ps = some (fs, pts, scans ++ [getEmptyScan]) := by
  have hnil : areFiltersNil true ps = false :=
    areFiltersNil_false true ps fl (by rw [hfl]; exact List.mem_cons_self fl rest) hinv
  have hinv2 : IndexKeyLessThan (newHighKey true fl.high) (newLowKey true fl.low) = true :=
    hinv
  simp only [processPrimaryScan, heq, hfl, hnil, List.length_nil, bne_self_eq_false,
    List.length_cons, List.getD_cons_zero, hinv2, Bool.false_eq_true, reduceIte]
  simp

/-! ### C9: the IndexPoint ordering -/

/-- **C9** (counterexample).  Two secondary-key points whose values are
prefix-equal but of different byte lengths are not ordered by length:
the shorter point `⟨[0], high⟩` sorts after the longer `⟨[0,1], low⟩`,
both under the comparator and in the sorted point list. -/
theorem C9_counterexample :
    comparePrefixBytes [0] [0, 1] = .eq ∧
    IndexPointLessThan ⟨.secKey [0], 0, .high⟩ ⟨.secKey [0, 1], 0, .low⟩ = false ∧
    IndexPointLessThan ⟨.secKey [0, 1], 0, .low⟩ ⟨.secKey [0], 0, .high⟩ = true ∧
    sortIndexPoints [⟨.secKey [0], 0, .high⟩, ⟨.secKey [0, 1], 0, .low⟩] =
      [⟨.secKey [0, 1], 0, .low⟩, ⟨.secKey [0], 0, .high⟩] := by
  decide

/-- **C9** (amended).  `IndexPointLessThan` on secondary-key points:
prefix-smaller values sort first; on prefix-equal values of equal byte
length, a low endpoint precedes a high one; on prefix-equal values of
different byte lengths, the order is decided by the endpoint type of the
shorter point — shorter first iff the shorter point is a low endpoint —
not by the lengths themselves. -/
theorem C9_amended :
    (∀ (x y : IndexPoint) (a b : List Nat), x.Value = .secKey a → y.Value = .secKey b →
      comparePrefixBytes a b = .lt → IndexPointLessThan x y = true) ∧
    (∀ (x y : IndexPoint) (a b : List Nat), x.Value = .secKey a → y.Value = .secKey b →
      comparePrefixBytes a b = .eq → a.length = b.length →
      IndexPointLessThan x y = decide (x.ptype = .low ∧ y.ptype = .high)) ∧
    (∀ (x y : IndexPoint) (a b : List Nat), x.Value = .secKey a → y.Value = .secKey b →
      comparePrefixBytes a b = .eq → a.length ≠ b.length →
      IndexPointLessThan x y =
        (if a.length < b.length then x.ptype == PointType.low
         else y.ptype == PointType.high)) := by
  refine ⟨?_, ?_, ?_⟩
  · intro x y a b hx hy hcp
    obtain ⟨xv, xf, xt⟩ := x
    obtain ⟨yv, yf, yt⟩ := y
    have hx2 : xv = .secKey a := hx
    have hy2 : yv = .secKey b := hy
    subst hx2; subst hy2
    simp [IndexPointLessThan, IndexKey.comparePrefixIndexKey, IndexKey.bytes, hcp]
    exact Or.inl rfl
  · intro x y a b hx hy hcp hlen
    obtain ⟨xv, xf, xt⟩ := x
    obtain ⟨yv, yf, yt⟩ := y
    have hx2 : xv = .secKey a := hx
    have hy2 : yv = .secKey b := hy
    subst hx2; subst hy2
    simp [IndexPointLessThan, IndexKey.comparePrefixIndexKey, IndexKey.bytes, hcp, hlen]
    cases xt <;> cases yt <;> rfl
  · intro x y a b hx hy hcp hlen
    obtain ⟨xv, xf, xt⟩ := x
    obtain ⟨yv, yf, yt⟩ := y
    have hx2 : xv = .secKey a := hx
    have hy2 : yv = .secKey b := hy
    subst hx2; subst hy2
    have hab : a ≠ b := fun h => hlen (by rw [h])
    have hXY : ((⟨.secKey a, xf, xt⟩ : IndexPoint) == ⟨.secKey b, yf, yt⟩) = false := by
      apply beq_eq_false_iff_ne.mpr
      intro h
      exact hab (IndexKey.secKey.inj (congrArg IndexPoint.Value h))
    have hYX : ((⟨.secKey b, yf, yt⟩ : IndexPoint) == ⟨.secKey a, xf, xt⟩) = false := by
      apply beq_eq_false_iff_ne.mpr
      intro h
      exact hab (IndexKey.secKey.inj (congrArg IndexPoint.Value h)).symm
    rcases Nat.lt_or_ge a.length b.length with hlt | hge
    · have hminx : minlen ⟨.secKey a, xf, xt⟩ ⟨.secKey b, yf, yt⟩ =
          ⟨.secKey a, xf, xt⟩ := by
        simp [minlen, IndexKey.bytes, hlt]
      cases xt
      · simp [IndexPointLessThan, IndexKey.comparePrefixIndexKey, IndexKey.bytes,
          hcp, hlen, hminx, hlt]
        exact Or.inr rfl
      · simp only [IndexPointLessThan, IndexKey.comparePrefixIndexKey, IndexKey.bytes,
          hcp, hlen, hminx, hlt]
        simp [hlen, hlt, hXY]
        rfl
    · have hnlt : ¬ a.length < b.length := Nat.not_lt.mpr hge
      have hminy : minlen ⟨.secKey a, xf, xt⟩ ⟨.secKey b, yf, yt⟩ =
          ⟨.secKey b, yf, yt⟩ := by
        simp [minlen, IndexKey.bytes, hnlt]
      cases yt
      · simp only [IndexPointLessThan, IndexKey.comparePrefixIndexKey, IndexKey.bytes,
          hcp, hlen, hminy, hnlt]
        simp [hlen, hnlt, hYX]
        rfl
      · simp [IndexPointLessThan, IndexKey.comparePrefixIndexKey, IndexKey.bytes,
          hcp, hlen, hminy, hnlt]
        exact Or.inr rfl

/-- **C9** (witness): the amended ordering at concrete points — a
prefix-smaller value, a low/high pair of equal length, and a longer low
endpoint before a shorter high one. -/
theorem C9_amended_witness :
    IndexPointLessThan ⟨.secKey [0], 0, .low⟩ ⟨.secKey [1], 0, .low⟩ = true ∧
    IndexPointLessThan ⟨.secKey [0], 0, .low⟩ ⟨.secKey [0], 1, .high⟩ = true ∧
    IndexPointLessThan ⟨.secKey [0, 1], 0, .low⟩ ⟨.secKey [0], 0, .high⟩ = true := by
  refine ⟨?_, ?_, ?_⟩
  · exact C9_amended.1 _ _ [0] [1] rfl rfl (by decide)
  · have h := C9_amended.2.1 ⟨.secKey [0], 0, .low⟩ ⟨.secKey [0], 1, .high⟩ [0] [0]
      rfl rfl (by decide) rfl
    simpa using h
  · have h := C9_amended.2.2 ⟨.secKey [0, 1], 0, .low⟩ ⟨.secKey [0], 0, .high⟩
      [0, 1] [0] rfl rfl (by decide) (by decide)
    simpa using h

/-! ### C10: inverted composite element filters -/

/-- **C10** (counterexample).  On a primary index only the FIRST wire
filter of a `Scan` is inspected: a request whose second filter is
inverted (high `[1]` < low `[2]`) yields a plain range scan from the
first filter and no empty scan at all. -/
theorem C10_counterexample :
    invertedFilter true ⟨some [2], some [1], .both⟩ = true ∧
    fillScansPrimary [⟨[], [⟨some [1], some [2], .both⟩, ⟨some [2], some [1], .both⟩]⟩] =
      [{ Low := .primKey [1], High := .primKey [2], Incl := .both, ScanType := .rangeReq }] ∧
    getEmptyScan ∉
      fillScansPrimary [⟨[], [⟨some [1], some [2], .both⟩, ⟨some [2], some [1], .both⟩]⟩] := by
  decide

/-- **C10** (amended).  Planning an inverted composite element filter
never errors.  On a primary index, when the inverted filter is the first
filter of its `Scan`, that scan contributes exactly the empty-range scan
(low = high = empty primary key, inclusion `Neither`); filters past the
first are never inspected by the primary path.  On a secondary index a
`Scan` containing an inverted filter anywhere is dropped: the emitted
scan list equals the one planned for the request without that `Scan`. -/
theorem C10_amended :
    (∀ (fs : List Filter) (pts : List IndexPoint) (scans : List Scan) (ps : ProtoScan)
        (fl : ProtoFilter) (rest : List ProtoFilter),
      ps.equals = [] → ps.filters = fl :: rest → invertedFilter true fl = true →
      processPrimaryScan fs pts scans ps = some (fs, pts, scans ++ [getEmptyScan]) ∧
      getEmptyScan =
        { Low := .primKey [], High := .primKey [], Incl := .neither,
          ScanType := .rangeReq }) ∧
    (∀ (ps : ProtoScan) (fl : ProtoFilter) (rest : List ProtoFilter),
      ps.equals = [] → ps.filters = fl :: rest → invertedFilter true fl = true →
      fillScansPrimary [ps] = [getEmptyScan]) ∧
    (∀ (join : List (List Nat) → List Nat) (revCollate : List Nat → List Bool → List Nat)
        (desc : List Bool) (pre post : List ProtoScan) (bad : ProtoScan),
      bad.equals = [] → (∃ fl ∈ bad.filters, invertedFilter false fl = true) →
      fillScansSecondary join revCollate desc (pre ++ bad :: post) =
        fillScansSecondary join revCollate desc (pre ++ post)) := by
  refine ⟨?_, ?_, ?_⟩
  · intro fs pts scans ps fl rest heq hfl hinv
    exact ⟨processPrimaryScan_empty fs pts scans ps fl rest heq hfl hinv, rfl⟩
  · intro ps fl rest heq hfl hinv
    simp only [fillScansPrimary, fillScansPrimaryLoop,
      processPrimaryScan_empty [] [] [] ps fl rest heq hfl hinv]
    rfl
  · intro join revCollate desc pre post bad heq h
    simp only [fillScansSecondary,
      fillScansSecondaryLoop_drop join revCollate desc bad post heq h pre [] []]

/-- **C10** (witness): the amended behaviour at concrete requests — a
primary scan whose single (first) filter is inverted becomes the empty
scan, and a secondary request keeps the same plan when its inverted
second `Scan` is removed. -/
theorem C10_witness :
    (processPrimaryScan [] [] [] ⟨[], [⟨some [2], some [1], .both⟩]⟩ =
        some ([], [], [getEmptyScan]) ∧
      getEmptyScan =
        { Low := .primKey [], High := .primKey [], Incl := .neither,
          ScanType := .rangeReq }) ∧
    fillScansPrimary [⟨[], [⟨some [2], some [1], .both⟩]⟩] = [getEmptyScan] ∧
    fillScansSecondary (fun ls => ls.flatten) (fun k _ => k) []
        ([⟨[[5]], []⟩] ++ ⟨[], [⟨some [2], some [1], .both⟩]⟩ :: []) =
      fillScansSecondary (fun ls => ls.flatten) (fun k _ => k) []
        ([⟨[[5]], []⟩] ++ []) := by
  refine ⟨?_, ?_, ?_⟩
  · exact C10_amended.1 [] [] [] ⟨[], [⟨some [2], some [1], .both⟩]⟩
      ⟨some [2], some [1], .both⟩ [] rfl rfl (by decide)
  · exact C10_amended.2.1 ⟨[], [⟨some [2], some [1], .both⟩]⟩
      ⟨some [2], some [1], .both⟩ [] rfl rfl (by decide)
  · exact C10_amended.2.2 (fun ls => ls.flatten) (fun k _ => k) []
      [⟨[[5]], []⟩] [] ⟨[], [⟨some [2], some [1], .both⟩]⟩ rfl
      ⟨⟨some [2], some [1], .both⟩, by decide, by decide⟩

end Indexing
